import Mathlib

/-!
# fwupd modem-manager plugin: device update paths

A shallow embedding of `plugins/modem-manager/fu-mm-device.c` and
`plugins/modem-manager/fu-mhi-bhi-updater.c`, and a model of the manifest
validator declared in `plugins/modem-manager/fu-firehose-updater.h`.

Conventions of the embedding.

* A byte is a `Char` (the character with that code); a byte buffer (`GBytes`,
  `GByteArray`) and the content of a C string before its terminator are both
  `List Char`.  The NUL byte is `Char.ofNat 0`.
* A `gchar *` that may be `NULL` is an `Option Bytes`; one that the function
  reads as a string on every path is a `Bytes`.
* A `gboolean` function with a `GError **` out-parameter returns
  `Except GError Unit`; `FALSE` is `Except.error`.
* Calls to collaborators outside these files (the channel, the archive, the QMI
  PDC updater, the device locker, `ioctl`) take their outcome from an explicit
  environment and are recorded in an event log.
* The `FWUPD_MODEM_MANAGER_VERBOSE` dumps and the `g_debug`/`g_warning` lines
  only log; they are left out.
-/

namespace FuMm

/-! ## Bytes, strings and errors -/

abbrev Bytes := List Char

/-- The NUL byte that terminates a C string. -/
def NUL : Char := Char.ofNat 0

/-- Error domain and code of a `GError`, as the sources name them. -/
inductive GErrorCode where
  | FWUPD_ERROR_NOT_SUPPORTED
  | G_IO_ERROR_NOT_INITIALIZED
  /-- Value of `g_io_error_from_errno (errno)` in domain `G_IO_ERROR`. -/
  | G_IO_ERROR_from_errno (errno : Nat)
  /-- Any error raised by a collaborator outside these files. -/
  | external (id : Nat)
deriving DecidableEq, Repr

structure GError where
  code : GErrorCode
  message : Bytes
deriving DecidableEq, Repr

deriving instance DecidableEq for Except

/-- `g_prefix_error (error, "<pre>")`: the text is put in front of the message. -/
def g_prefix_error (e : GError) (pre : Bytes) : GError :=
  { e with message := pre ++ e.message }

/-- `g_strndup (str, n)`: at most `n` bytes of `str`, stopping at a NUL byte. -/
def g_strndup (str : Bytes) (n : Nat) : Bytes :=
  (str.take n).takeWhile (fun c => c != NUL)

/-- `memcmp (a, b, n) != 0` on buffers that both hold at least `n` bytes. -/
def memcmp_ne (a b : Bytes) (n : Nat) : Bool :=
  a.take n != b.take n

/-- `g_str_has_prefix (str, prefix)`. -/
def g_str_has_prefix (str pre : Bytes) : Bool :=
  pre.isPrefixOf str

/-- `g_str_has_suffix (str, suffix)`. -/
def g_str_has_suffix (str suf : Bytes) : Bool :=
  suf.isSuffixOf str

/-- How `printf`-style `%s` renders a `gchar *`: glibc prints `(null)` for `NULL`. -/
def fmt_s : Option Bytes → Bytes
  | some s => s
  | none => "(null)".toList

/-! ## `fu_mm_device_at_cmd` -/

/-- The literal `"\r\nOK\r\n"` the response is compared with. -/
def AT_OK : Bytes := "\r\nOK\r\n".toList

/-- What the AT channel does with one request: the outcome of
`fu_io_channel_write_bytes` and, after it, of `fu_io_channel_read_bytes`. -/
structure AtExchange where
  write : Except GError Unit
  read : Except GError Bytes

/-- `fu_mm_device_at_cmd (self, cmd, error)`; `io` maps the request written
(`cmd` followed by CR LF) to what the channel does with it. -/
def fu_mm_device_at_cmd (io : Bytes → AtExchange) (cmd : Bytes) : Except GError Unit :=
  let cmd_cr := cmd ++ "\r\n".toList
  match (io cmd_cr).write with
  | .error e => .error (g_prefix_error e ("failed to write ".toList ++ cmd ++ ": ".toList))
  | .ok () =>
    match (io cmd_cr).read with
    | .error e =>
      .error (g_prefix_error e ("failed to read response for ".toList ++ cmd ++ ": ".toList))
    | .ok buf =>
      let bufsz := buf.length
      if bufsz < 6 then
        .error { code := .FWUPD_ERROR_NOT_SUPPORTED,
                 message := "failed to read valid response for ".toList ++ cmd }
      else if memcmp_ne buf AT_OK 6 then
        let tmp := g_strndup (buf.drop 2) (bufsz - 4)
        .error { code := .FWUPD_ERROR_NOT_SUPPORTED,
                 message := "failed to read valid response for ".toList ++ cmd
                              ++ ": ".toList ++ tmp }
      else
        .ok ()

/-- A channel that accepts the request and answers `res`. -/
def answers (res : Bytes) : Bytes → AtExchange :=
  fun _ => { write := .ok (), read := .ok res }

/-! ## The device -/

/-- Modelled from the spec: the `MMModemFirmwareUpdateMethod` bit flags are
declared by ModemManager, outside these files; the spec gives `FASTBOOT = 1`. -/
def MM_MODEM_FIRMWARE_UPDATE_METHOD_FASTBOOT : Nat := 1

/-- Modelled from the spec: the configuration-database (QMI PDC) update method
bit, declared by ModemManager; the spec gives `CONFIG_DB = 2`. -/
def MM_MODEM_FIRMWARE_UPDATE_METHOD_QMI_PDC : Nat := 2

/-- Modelled from the spec: the raw-image update method bit, declared by
ModemManager; the spec gives `RAW_IMAGE = 4`. -/
def MM_MODEM_FIRMWARE_UPDATE_METHOD_RAW_IMAGE : Nat := 4

/-- The empty bitmask, `MM_MODEM_FIRMWARE_UPDATE_METHOD_NONE`. -/
def MM_MODEM_FIRMWARE_UPDATE_METHOD_NONE : Nat := 0

/-- The C test `methods & bit` (non-zero is true). -/
def has_method (methods bit : Nat) : Bool :=
  methods &&& bit != 0

/-- `FU_MM_DEVICE_REMOVE_DELAY_REPROBE`, in ms. -/
def FU_MM_DEVICE_REMOVE_DELAY_REPROBE : Nat := 45000

/-- Values fixed outside these files: a constant of `fu-device.h` and the facts
about the build that the sources depend on. -/
structure Platform where
  /-- `FU_DEVICE_REMOVE_DELAY_RE_ENUMERATE`, in ms. -/
  FU_DEVICE_REMOVE_DELAY_RE_ENUMERATE : Nat
  /-- `sizeof (gsize)`, in bytes. -/
  sizeof_gsize : Nat
  /-- Whether the byte order of the host is big-endian. -/
  big_endian : Bool
  /-- Whether `HAVE_IOCTL_H` is defined. -/
  HAVE_IOCTL_H : Bool

inductive FwupdDeviceFlag where
  | UPDATABLE
  | USE_RUNTIME_VERSION
  | WAIT_FOR_REPLUG
deriving DecidableEq, Repr

inductive MMModemPortType where
  | UNKNOWN | NET | AT | QCDM | GPS | QMI | MBIM | AUDIO
deriving DecidableEq, Repr

structure MMModemPortInfo where
  name : Bytes
  type : MMModemPortType
deriving DecidableEq, Repr

/-- What `mm_modem_firmware_get_update_settings` reports. -/
structure MMFirmwareUpdateSettings where
  method : Nat
  fastboot_at : Option Bytes
  /-- A `NULL` array is `none`; the array without its `NULL` end otherwise. -/
  device_ids : Option (List Bytes)
  version : Option Bytes
deriving DecidableEq, Repr

/-- What the ModemManager object of a modem exposes to `probe`. -/
structure MMObject where
  /-- Value of `mm_modem_dup_device`. -/
  device : Option Bytes
  update_settings : MMFirmwareUpdateSettings
  /-- Ports of `mm_modem_get_ports`; `none` when the call returns `FALSE`. -/
  ports : Option (List MMModemPortInfo)
  manufacturer : Option Bytes
  model : Option Bytes
deriving DecidableEq, Repr

/-- `struct _FuMmDevice`, with the fields of the `FuDevice` parent that these
functions set. -/
structure FuMmDevice where
  physical_id : Option Bytes := none
  vendor : Option Bytes := none
  name : Option Bytes := none
  version : Option Bytes := none
  summary : Option Bytes := none
  icons : List Bytes := []
  guids : List Bytes := []
  flags : List FwupdDeviceFlag := []
  remove_delay : Nat := 0
  omodem : Option MMObject := none
  inhibition_uid : Option Bytes := none
  update_methods : Nat := 0
  detach_fastboot_at : Option Bytes := none
  port_at_ifnum : Int := 0
  port_at : Option Bytes := none
  /-- Whether `io_channel` is non-`NULL`. -/
  io_channel : Bool := false
  port_qmi : Option Bytes := none
  /-- Whether `qmi_pdc_updater` is non-`NULL`. -/
  qmi_pdc_updater : Bool := false
deriving DecidableEq, Repr

def fu_device_add_flag (d : FuMmDevice) (f : FwupdDeviceFlag) : FuMmDevice :=
  if f ∈ d.flags then d else { d with flags := d.flags ++ [f] }

def fu_device_set_remove_delay (d : FuMmDevice) (ms : Nat) : FuMmDevice :=
  { d with remove_delay := ms }

def fu_device_add_guid (d : FuMmDevice) (guid : Bytes) : FuMmDevice :=
  { d with guids := d.guids ++ [guid] }

/-- `fu_mm_device_init`, run by `g_object_new` on the zeroed instance. -/
def fu_mm_device_init (self : FuMmDevice) : FuMmDevice :=
  let self := fu_device_add_flag self .UPDATABLE
  let self := fu_device_add_flag self .USE_RUNTIME_VERSION
  { self with summary := some "Mobile broadband device".toList,
              icons := self.icons ++ ["network-modem".toList] }

/-- `fu_mm_device_new (manager, omodem)`. -/
def fu_mm_device_new (omodem : MMObject) : FuMmDevice :=
  let self := fu_mm_device_init {}
  { self with omodem := some omodem, port_at_ifnum := -1 }

/-- `fu_mm_device_udev_new (manager, physical_id, vendor, name, version,
device_ids, update_methods, detach_fastboot_at, port_at_ifnum)`.  The
`physical_id` is printed with `%s` by `g_debug`, so it is a string. -/
def fu_mm_device_udev_new (physical_id : Bytes) (vendor name version : Option Bytes)
    (device_ids : List Bytes) (update_methods : Nat)
    (detach_fastboot_at : Option Bytes) (port_at_ifnum : Int) : FuMmDevice :=
  let self := fu_mm_device_init {}
  let self := { self with physical_id := some physical_id, vendor := vendor,
                          name := name, version := version }
  let self := device_ids.foldl fu_device_add_guid self
  { self with update_methods := update_methods,
              detach_fastboot_at := detach_fastboot_at,
              port_at_ifnum := port_at_ifnum }

/-- `fu_mm_device_udev_add_port (self, subsystem, path, ifnum)`.  Every branch
prints `path` and `subsystem` with `%s` (`g_debug`), and `subsystem` is read by
`g_str_equal`, so both are strings. -/
def fu_mm_device_udev_add_port (self : FuMmDevice) (subsystem path : Bytes)
    (ifnum : Int) : FuMmDevice :=
  if subsystem = "usbmisc".toList ∧ self.port_qmi = none then
    { self with port_qmi := some path }
  else if subsystem = "tty".toList ∧ self.port_at = none ∧
      0 ≤ ifnum ∧ ifnum = self.port_at_ifnum then
    { self with port_at := some path }
  else
    self

/-! ## Environment, event log, outcomes -/

/-- `FuMmFileInfo`: one selected archive entry. -/
structure FuMmFileInfo where
  filename : Bytes
  bytes : Bytes
deriving DecidableEq, Repr

/-- The collaborators of the device code.  Each field is the outcome of the
named external call. -/
structure Env where
  /-- `fu_device_locker_new (device, error)`: the plain device lock. -/
  fu_device_locker_new : Except GError Unit
  /-- `fu_io_channel_new_file (port_at, error)`. -/
  fu_io_channel_new_file : Option Bytes → Except GError Unit
  /-- `fu_io_channel_shutdown (io_channel, error)`. -/
  fu_io_channel_shutdown : Except GError Unit
  /-- The AT port: given the requests written before, what it does with the
  next request. -/
  at_port : List Bytes → Bytes → AtExchange
  /-- `fu_archive_new (fw, FU_ARCHIVE_FLAG_IGNORE_PATH, error)`: the entries in
  the order `fu_archive_iterate` visits them. -/
  fu_archive_new : Bytes → Except GError (List (Bytes × Bytes))
  /-- `fu_qmi_pdc_updater_open` on a new updater for the given port. -/
  fu_qmi_pdc_updater_open : Option Bytes → Except GError Unit
  /-- `fu_qmi_pdc_updater_write (updater, filename, bytes, error)`: given the
  files written before, the outcome for the next file. -/
  fu_qmi_pdc_updater_write : List FuMmFileInfo → FuMmFileInfo → Except GError Unit
  /-- `fu_qmi_pdc_updater_close (updater, error)`. -/
  fu_qmi_pdc_updater_close : Except GError Unit

/-- Calls made on the AT port, the archive and the QMI PDC updater. -/
inductive Event where
  | io_channel_new_file (port : Option Bytes)
  | at_cmd (cmd : Bytes) (res : Except GError Unit)
  | io_channel_shutdown
  | archive_new (fw : Bytes)
  | qmi_pdc_updater_open (port : Option Bytes)
  | qmi_pdc_updater_write (file : FuMmFileInfo) (res : Except GError Unit)
  | qmi_pdc_updater_close
deriving DecidableEq

/-- Device after the call, calls made, value returned. -/
structure Outcome where
  dev : FuMmDevice
  log : List Event
  result : Except GError Unit
deriving DecidableEq

/-! ## Detach -/

/-- `fu_mm_device_io_open`. -/
def fu_mm_device_io_open (env : Env) (self : FuMmDevice) : FuMmDevice × Except GError Unit :=
  match env.fu_io_channel_new_file self.port_at with
  | .error e => ({ self with io_channel := false }, .error e)
  | .ok () => ({ self with io_channel := true }, .ok ())

/-- `fu_mm_device_io_close`. -/
def fu_mm_device_io_close (env : Env) (self : FuMmDevice) : FuMmDevice × Except GError Unit :=
  match env.fu_io_channel_shutdown with
  | .error e => (self, .error e)
  | .ok () => ({ self with io_channel := false }, .ok ())

/-- The end of the scope of the locker made with `fu_mm_device_io_open` and
`fu_mm_device_io_close`: the close function runs, its error is only logged. -/
def io_locker_release (env : Env) (self : FuMmDevice) (log : List Event)
    (result : Except GError Unit) : Outcome :=
  { dev := (fu_mm_device_io_close env self).1,
    log := log ++ [.io_channel_shutdown],
    result := result }

/-- `fu_mm_device_detach_fastboot`. -/
def fu_mm_device_detach_fastboot (p : Platform) (env : Env) (self : FuMmDevice) : Outcome :=
  let opened := fu_mm_device_io_open env self
  let log := [Event.io_channel_new_file self.port_at]
  match opened.2 with
  | .error e => { dev := opened.1, log := log, result := .error e }
  | .ok () =>
    let self := opened.1
    let r1 := fu_mm_device_at_cmd (env.at_port []) "AT".toList
    let log := log ++ [.at_cmd "AT".toList r1]
    match r1 with
    | .error e => io_locker_release env self log (.error e)
    | .ok () =>
      let cmd := fmt_s self.detach_fastboot_at
      let r2 := fu_mm_device_at_cmd (env.at_port ["AT\r\n".toList]) cmd
      let log := log ++ [.at_cmd cmd r2]
      match r2 with
      | .error e =>
        io_locker_release env self log
          (.error (g_prefix_error e "rebooting into fastboot not supported: ".toList))
      | .ok () =>
        let self := fu_device_set_remove_delay self p.FU_DEVICE_REMOVE_DELAY_RE_ENUMERATE
        let self := fu_device_add_flag self .WAIT_FOR_REPLUG
        io_locker_release env self log (.ok ())

/-- `fu_mm_device_detach`. -/
def fu_mm_device_detach (p : Platform) (env : Env) (self : FuMmDevice) : Outcome :=
  match env.fu_device_locker_new with
  | .error e => { dev := self, log := [], result := .error e }
  | .ok () =>
    if has_method self.update_methods MM_MODEM_FIRMWARE_UPDATE_METHOD_FASTBOOT then
      fu_mm_device_detach_fastboot p env self
    else
      { dev := self, log := [], result := .ok () }

/-! ## Write firmware -/

/-- `FuMmArchiveIterateCtx` (the `device` pointer is the `self` in scope). -/
structure FuMmArchiveIterateCtx where
  error : Option GError := none
  file_infos : List FuMmFileInfo := []
  total_written : Nat := 0
  total_bytes : Nat := 0
deriving DecidableEq

/-- `fu_mm_qmi_pdc_archive_iterate_mcfg`, the callback run on each entry. -/
def fu_mm_qmi_pdc_archive_iterate_mcfg (ctx : FuMmArchiveIterateCtx)
    (filename bytes : Bytes) : FuMmArchiveIterateCtx :=
  if (! g_str_has_prefix filename "mcfg.".toList) || (! g_str_has_suffix filename ".mbn".toList) then
    ctx
  else
    let file_info : FuMmFileInfo := { filename := filename, bytes := bytes }
    { ctx with file_infos := ctx.file_infos ++ [file_info],
               total_bytes := ctx.total_bytes + file_info.bytes.length }

/-- `fu_archive_iterate (archive, callback, user_data)`. -/
def fu_archive_iterate (archive : List (Bytes × Bytes))
    (callback : FuMmArchiveIterateCtx → Bytes → Bytes → FuMmArchiveIterateCtx)
    (ctx : FuMmArchiveIterateCtx) : FuMmArchiveIterateCtx :=
  archive.foldl (fun c entry => callback c entry.1 entry.2) ctx

/-- `fu_mm_device_qmi_open`. -/
def fu_mm_device_qmi_open (env : Env) (self : FuMmDevice) : FuMmDevice × Except GError Unit :=
  ({ self with qmi_pdc_updater := true }, env.fu_qmi_pdc_updater_open self.port_qmi)

/-- `fu_mm_device_qmi_close`. -/
def fu_mm_device_qmi_close (env : Env) (self : FuMmDevice) : FuMmDevice × Except GError Unit :=
  ({ self with qmi_pdc_updater := false }, env.fu_qmi_pdc_updater_close)

/-- The end of the scope of the locker made with `fu_mm_device_qmi_open` and
`fu_mm_device_qmi_close`. -/
def qmi_locker_release (env : Env) (self : FuMmDevice) (log : List Event)
    (result : Except GError Unit) : Outcome :=
  { dev := (fu_mm_device_qmi_close env self).1,
    log := log ++ [.qmi_pdc_updater_close],
    result := result }

/-- The `for` loop of `fu_mm_device_write_firmware_qmi_pdc` from index
`written.length` on: the calls made and the value left in
`iterate_context.error`. -/
def write_file_infos (env : Env) :
    List FuMmFileInfo → List FuMmFileInfo → List Event × Option GError
  | _, [] => ([], none)
  | written, file_info :: rest =>
    match env.fu_qmi_pdc_updater_write written file_info with
    | .error e => ([.qmi_pdc_updater_write file_info (.error e)], some e)
    | .ok () =>
      let r := write_file_infos env (written ++ [file_info]) rest
      (.qmi_pdc_updater_write file_info (.ok ()) :: r.1, r.2)

/-- `fu_mm_device_write_firmware_qmi_pdc`. -/
def fu_mm_device_write_firmware_qmi_pdc (env : Env) (self : FuMmDevice) (fw : Bytes) :
    Outcome :=
  let log := [Event.archive_new fw]
  match env.fu_archive_new fw with
  | .error e => { dev := self, log := log, result := .error e }
  | .ok archive =>
    let opened := fu_mm_device_qmi_open env self
    let log := log ++ [.qmi_pdc_updater_open self.port_qmi]
    match opened.2 with
    | .error e => { dev := opened.1, log := log, result := .error e }
    | .ok () =>
      let self := opened.1
      let iterate_context :=
        fu_archive_iterate archive fu_mm_qmi_pdc_archive_iterate_mcfg {}
      let w := write_file_infos env [] iterate_context.file_infos
      let log := log ++ w.1
      match w.2 with
      | some e => qmi_locker_release env self log (.error e)
      | none => qmi_locker_release env self log (.ok ())

/-- `fu_mm_device_write_firmware`. -/
def fu_mm_device_write_firmware (env : Env) (self : FuMmDevice) (fw : Bytes) : Outcome :=
  match env.fu_device_locker_new with
  | .error e => { dev := self, log := [], result := .error e }
  | .ok () =>
    if has_method self.update_methods MM_MODEM_FIRMWARE_UPDATE_METHOD_QMI_PDC then
      fu_mm_device_write_firmware_qmi_pdc env self fw
    else
      { dev := self, log := [], result := .ok () }

/-- `fu_mm_device_attach`. -/
def fu_mm_device_attach (env : Env) (self : FuMmDevice) : Outcome :=
  match env.fu_device_locker_new with
  | .error e => { dev := self, log := [], result := .error e }
  | .ok () =>
    let self := fu_device_set_remove_delay self FU_MM_DEVICE_REMOVE_DELAY_REPROBE
    let self := fu_device_add_flag self .WAIT_FOR_REPLUG
    { dev := self, log := [], result := .ok () }

/-- The files the write loop handed to the updater, in order. -/
def written_files : List Event → List FuMmFileInfo
  | [] => []
  | .qmi_pdc_updater_write file _ :: rest => file :: written_files rest
  | _ :: rest => written_files rest

/-- The AT commands issued with what `fu_mm_device_at_cmd` returned, in order. -/
def at_results : List Event → List (Bytes × Except GError Unit)
  | [] => []
  | .at_cmd cmd res :: rest => (cmd, res) :: at_results rest
  | _ :: rest => at_results rest

/-- The test `fu_mm_qmi_pdc_archive_iterate_mcfg` makes on a filename. -/
def is_mcfg (filename : Bytes) : Bool :=
  g_str_has_prefix filename "mcfg.".toList && g_str_has_suffix filename ".mbn".toList

/-- The `file_infos` array after `fu_archive_iterate` ran the callback on a
fresh context. -/
def selected (archive : List (Bytes × Bytes)) : List FuMmFileInfo :=
  (fu_archive_iterate archive fu_mm_qmi_pdc_archive_iterate_mcfg {}).file_infos

/-- The filename pattern in the words of the spec, `mcfg.<token>.mbn`: the text
`mcfg.`, a token (here allowed to be empty), the text `.mbn`. -/
def spec_matches_mcfg (filename : Bytes) : Prop :=
  ∃ token : Bytes, filename = "mcfg.".toList ++ token ++ ".mbn".toList

/-- What `fu_mm_device_at_cmd` returns for the probe `AT`, the first request
on the AT port of `env`: whether the port acknowledges the probe. -/
def at_probe (env : Env) : Except GError Unit :=
  fu_mm_device_at_cmd (env.at_port []) "AT".toList

/-- What `fu_mm_device_at_cmd` returns for the detach command of the device,
sent on the AT port of `env` after the probe: whether the port acknowledges the
detach command. -/
def at_detach (env : Env) (self : FuMmDevice) : Except GError Unit :=
  fu_mm_device_at_cmd (env.at_port ["AT\r\n".toList]) (fmt_s self.detach_fastboot_at)

/-- The AT commands issued, in order. -/
def at_cmds : List Event → List Bytes
  | [] => []
  | .at_cmd cmd _ :: rest => cmd :: at_cmds rest
  | _ :: rest => at_cmds rest

/-! ## Probe -/

/-- What `fu_mm_utils_get_port_info (path, &device_sysfs_path, &ifnum, NULL)`
leaves in its out-parameters; `none` is an out-parameter it did not set. -/
structure PortInfo where
  device_sysfs_path : Option Bytes
  port_ifnum : Option Int
deriving DecidableEq

/-- How a probe ends: it returns, or `g_assert_not_reached ()` aborts the
process. -/
inductive Probe where
  | returned (dev : FuMmDevice) (result : Except GError Unit)
  | aborted
deriving DecidableEq

def not_supported (message : String) : GError :=
  { code := .FWUPD_ERROR_NOT_SUPPORTED, message := message.toList }

/-- The `for` loop with `break` over the ports: the first port whose type is
one of `types`, as `/dev/<name>`. -/
def first_port (ports : List MMModemPortInfo) (types : List MMModemPortType) :
    Option Bytes :=
  match ports with
  | [] => none
  | port :: rest =>
    if port.type ∈ types then some ("/dev/".toList ++ port.name)
    else first_port rest types

/-- The end of `fu_mm_device_probe_default`, from the test of
`device_sysfs_path` on. -/
def probe_default_finish (self : FuMmDevice) (omodem : MMObject) (version : Bytes)
    (device_ids : List Bytes) (device_sysfs_path : Option Bytes) : Probe :=
  match device_sysfs_path with
  | none => .returned self (.error (not_supported "failed to find device sysfs path"))
  | some path =>
    let self := { self with physical_id := some path,
                            vendor := omodem.manufacturer,
                            name := omodem.model,
                            version := some version }
    let self := device_ids.foldl fu_device_add_guid self
    .returned self (.ok ())

/-- The part of `fu_mm_device_probe_default` that looks for the AT and the
QMI/MBIM port among the ports of the modem (the two `for` loops). -/
def probe_default_find_ports (self : FuMmDevice) (ports : List MMModemPortInfo) :
    FuMmDevice :=
  let self :=
    if has_method self.update_methods MM_MODEM_FIRMWARE_UPDATE_METHOD_FASTBOOT then
      match first_port ports [.AT] with
      | some path => { self with port_at := some path }
      | none => self
    else self
  if has_method self.update_methods MM_MODEM_FIRMWARE_UPDATE_METHOD_QMI_PDC then
    match first_port ports [.QMI, .MBIM] with
    | some path => { self with port_qmi := some path }
    | none => self
  else self

/-- The part of `fu_mm_device_probe_default` after the ports were looked for:
the two port checks, the port information, the properties of the device. -/
def probe_default_check_ports (get_port_info : Bytes → PortInfo) (self : FuMmDevice)
    (omodem : MMObject) (version : Bytes) (device_ids : List Bytes) : Probe :=
  if has_method self.update_methods MM_MODEM_FIRMWARE_UPDATE_METHOD_FASTBOOT
      ∧ self.port_at = none then
    .returned self (.error (not_supported "failed to find AT port"))
  else if has_method self.update_methods MM_MODEM_FIRMWARE_UPDATE_METHOD_QMI_PDC
      ∧ self.port_qmi = none then
    .returned self (.error (not_supported "failed to find QMI port"))
  else
    match self.port_at, self.port_qmi with
    | some port_at, _ =>
      let info := get_port_info port_at
      let self :=
        match info.port_ifnum with
        | some ifnum => { self with port_at_ifnum := ifnum }
        | none => self
      probe_default_finish self omodem version device_ids info.device_sysfs_path
    | none, some port_qmi =>
      let info := get_port_info port_qmi
      probe_default_finish self omodem version device_ids info.device_sysfs_path
    | none, none => .aborted

/-- `fu_mm_device_probe_default`, for a device whose `omodem` is `omodem`. -/
def fu_mm_device_probe_default (get_port_info : Bytes → PortInfo)
    (self : FuMmDevice) (omodem : MMObject) : Probe :=
  let self := { self with inhibition_uid := omodem.device }
  let update_settings := omodem.update_settings
  let self := { self with update_methods := update_settings.method }
  if self.update_methods = MM_MODEM_FIRMWARE_UPDATE_METHOD_NONE then
    .returned self (.error (not_supported "modem cannot be put in programming mode"))
  else if has_method self.update_methods MM_MODEM_FIRMWARE_UPDATE_METHOD_FASTBOOT
      ∧ update_settings.fastboot_at = none then
    .returned self (.error (not_supported "modem does not set fastboot command"))
  else
    let self :=
      if has_method self.update_methods MM_MODEM_FIRMWARE_UPDATE_METHOD_FASTBOOT then
        { self with detach_fastboot_at := update_settings.fastboot_at }
      else self
    match update_settings.device_ids with
    | none | some [] =>
      .returned self (.error (not_supported "modem did not specify any device IDs"))
    | some (id0 :: ids) =>
      match update_settings.version with
      | none =>
        .returned self (.error (not_supported "modem did not specify a firmware version"))
      | some version =>
        match omodem.ports with
        | none => .returned self (.error (not_supported "failed to get port information"))
        | some ports =>
          let self := probe_default_find_ports self ports
          probe_default_check_ports get_port_info self omodem version (id0 :: ids)

/-- `fu_mm_device_probe_udev`. -/
def fu_mm_device_probe_udev (self : FuMmDevice) : Except GError Unit :=
  if has_method self.update_methods MM_MODEM_FIRMWARE_UPDATE_METHOD_FASTBOOT
      ∧ self.port_at = none then
    .error (not_supported "failed to find AT port")
  else if has_method self.update_methods MM_MODEM_FIRMWARE_UPDATE_METHOD_QMI_PDC
      ∧ self.port_qmi = none then
    .error (not_supported "failed to find QMI port")
  else
    .ok ()

/-- `fu_mm_device_probe`. -/
def fu_mm_device_probe (get_port_info : Bytes → PortInfo) (self : FuMmDevice) : Probe :=
  match self.omodem with
  | some omodem => fu_mm_device_probe_default get_port_info self omodem
  | none => .returned self (fu_mm_device_probe_udev self)

/-- The invariant the spec gives for a device, for the FASTBOOT and CONFIG_DB
bits: with FASTBOOT a detach command and an AT port are present, with
CONFIG_DB a QMI/MBIM port is present. -/
def spec_device_invariant (d : FuMmDevice) : Prop :=
  (has_method d.update_methods MM_MODEM_FIRMWARE_UPDATE_METHOD_FASTBOOT = true →
      d.detach_fastboot_at ≠ none ∧ d.port_at ≠ none) ∧
  (has_method d.update_methods MM_MODEM_FIRMWARE_UPDATE_METHOD_QMI_PDC = true →
      d.port_qmi ≠ none)

instance (d : FuMmDevice) : Decidable (spec_device_invariant d) := by
  unfold spec_device_invariant; infer_instance

/-! ## Boot host interface updater (`fu-mhi-bhi-updater.c`) -/

/-- `IOCTL_BHI_GETDEVINFO`. -/
def IOCTL_BHI_GETDEVINFO : Nat := 0x8BE0 + 1

/-- `IOCTL_BHI_WRITEIMAGE`. -/
def IOCTL_BHI_WRITEIMAGE : Nat := 0x8BE0 + 2

/-- `MHI_EE_EDL`. -/
def MHI_EE_EDL : Nat := 0x6

/-- `BhiInfo`; every field is a `guint`. -/
structure BhiInfo where
  bhi_ver_minor : Nat := 0
  bhi_ver_major : Nat := 0
  bhi_image_address_low : Nat := 0
  bhi_image_address_high : Nat := 0
  bhi_image_size : Nat := 0
  bhi_rsvd1 : Nat := 0
  bhi_imgtxdb : Nat := 0
  bhi_rsvd2 : Nat := 0
  bhi_msivec : Nat := 0
  bhi_rsvd3 : Nat := 0
  bhi_ee : Nat := 0
  bhi_status : Nat := 0
  bhi_errorcode : Nat := 0
  bhi_errdbg1 : Nat := 0
  bhi_errdbg2 : Nat := 0
  bhi_errdbg3 : Nat := 0
  bhi_sernum : Nat := 0
  bhi_sblantirollbackver : Nat := 0
  bhi_numsegs : Nat := 0
  bhi_msmhwid : List Nat := List.replicate 6 0
  bhi_oempkhash : List Nat := List.replicate 48 0
  bhi_rsvd5 : Nat := 0
deriving DecidableEq

/-- `struct _FuMhiBhiUpdater`. -/
structure FuMhiBhiUpdater where
  port : Option Bytes
  /-- Whether `io_channel` is non-`NULL`. -/
  io_channel : Bool := false
deriving DecidableEq

/-- Return value of an `ioctl` call and the `errno` it leaves. -/
structure IoctlReturn where
  ret : Int
  errno : Nat
deriving DecidableEq

/-- The collaborators of the boot host interface updater. -/
structure BhiEnv where
  /-- `fu_io_channel_new_file (port, error)`. -/
  fu_io_channel_new_file : Option Bytes → Except GError Unit
  /-- `ioctl (fd, IOCTL_BHI_GETDEVINFO, &bhi_info)`: the return and the record
  it leaves in `bhi_info`. -/
  getdevinfo : IoctlReturn × BhiInfo
  /-- `ioctl (fd, IOCTL_BHI_WRITEIMAGE, buffer)` for a given buffer. -/
  writeimage : Bytes → IoctlReturn

/-- Calls made by the updater. -/
inductive BhiEvent where
  | io_channel_new_file (port : Option Bytes)
  /-- An `ioctl` that fills the record it is given. -/
  | ioctl_query (request : Nat)
  /-- An `ioctl` that is handed a buffer. -/
  | ioctl_buffer (request : Nat) (buffer : Bytes)
deriving DecidableEq

structure BhiOutcome where
  updater : FuMhiBhiUpdater
  log : List BhiEvent
  result : Except GError Unit
deriving DecidableEq

/-- Lower-case hexadecimal digits, as `%x` prints them. -/
def fmt_x (n : Nat) : Bytes := Nat.toDigits 16 n

/-- `fu_mhi_bhi_updater_open`. -/
def fu_mhi_bhi_updater_open (p : Platform) (env : BhiEnv) (self : FuMhiBhiUpdater) :
    BhiOutcome :=
  if p.HAVE_IOCTL_H then
    let log := [BhiEvent.io_channel_new_file self.port]
    match env.fu_io_channel_new_file self.port with
    | .error e => { updater := { self with io_channel := false }, log := log, result := .error e }
    | .ok () =>
      let self := { self with io_channel := true }
      let log := log ++ [.ioctl_query IOCTL_BHI_GETDEVINFO]
      let bhi_info := env.getdevinfo.2
      if env.getdevinfo.1.ret ≠ 0 then
        { updater := self, log := log,
          result := .error { code := .G_IO_ERROR_from_errno env.getdevinfo.1.errno,
                             message := "Couldn't get MHI BHI device info".toList } }
      else if bhi_info.bhi_ee ≠ MHI_EE_EDL then
        { updater := self, log := log,
          result := .error { code := .G_IO_ERROR_NOT_INITIALIZED,
                             message := "Device is not in emergency download mode: 0x".toList
                               ++ fmt_x bhi_info.bhi_ee ++ " (expected 0x".toList
                               ++ fmt_x MHI_EE_EDL ++ ")".toList } }
      else
        { updater := self, log := log, result := .ok () }
  else
    { updater := self, log := [],
      result := .error (not_supported "Not supported as ioctl() is unavailable") }

/-- The `width` low bytes of `n`, least significant first. -/
def le_bytes : Nat → Nat → List Nat
  | 0, _ => []
  | width + 1, n => n % 256 :: le_bytes width (n / 256)

/-- The value of a byte sequence, least significant byte first. -/
def le_value : List Nat → Nat
  | [] => 0
  | b :: bs => b + 256 * le_value bs

/-- The object representation of a `gsize` holding `n`: `sizeof (gsize)` bytes
in the byte order of the host. -/
def gsize_bytes (p : Platform) (n : Nat) : Bytes :=
  let le := (le_bytes p.sizeof_gsize n).map Char.ofNat
  if p.big_endian then le.reverse else le

/-- The `gsize` whose object representation is `bs`. -/
def gsize_value (p : Platform) (bs : Bytes) : Nat :=
  le_value ((if p.big_endian then bs.reverse else bs).map Char.toNat)

/-- `fu_mhi_bhi_updater_write`. -/
def fu_mhi_bhi_updater_write (p : Platform) (env : BhiEnv) (self : FuMhiBhiUpdater)
    (blob : Bytes) : BhiOutcome :=
  let blob_size := blob.length
  let byte_array := blob
  let byte_array := gsize_bytes p blob_size ++ byte_array
  let blob_buffer := byte_array
  let r := env.writeimage blob_buffer
  let log := [BhiEvent.ioctl_buffer IOCTL_BHI_WRITEIMAGE blob_buffer]
  if r.ret ≠ 0 then
    { updater := self, log := log,
      result := .error { code := .G_IO_ERROR_from_errno r.errno,
                         message := "Couldn't write to MHI BHI device".toList } }
  else
    { updater := self, log := log, result := .ok () }

/-- `fu_mhi_bhi_updater_close`. -/
def fu_mhi_bhi_updater_close (shutdown : Except GError Unit) (self : FuMhiBhiUpdater) :
    FuMhiBhiUpdater × Except GError Unit :=
  match shutdown with
  | .error e => (self, .error e)
  | .ok () => ({ self with io_channel := false }, .ok ())

/-- `fu_mhi_bhi_updater_new (port)`. -/
def fu_mhi_bhi_updater_new (port : Option Bytes) : FuMhiBhiUpdater :=
  { port := port, io_channel := false }

/-! ## Sequences of `fu_mm_device_udev_add_port` calls -/

/-- The arguments of one `fu_mm_device_udev_add_port` call. -/
structure PortCall where
  subsystem : Bytes
  path : Bytes
  ifnum : Int
deriving DecidableEq

/-- The device after the calls were made on it, in order. -/
def add_ports (self : FuMmDevice) (calls : List PortCall) : FuMmDevice :=
  calls.foldl (fun d c => fu_mm_device_udev_add_port d c.subsystem c.path c.ifnum) self

/-- A call with subsystem `usbmisc`. -/
def is_usbmisc (c : PortCall) : Bool :=
  decide (c.subsystem = "usbmisc".toList)

/-- A call with subsystem `tty` whose interface number is non-negative and
equal to `port_at_ifnum`. -/
def is_at_tty (port_at_ifnum : Int) (c : PortCall) : Bool :=
  decide (c.subsystem = "tty".toList ∧ 0 ≤ c.ifnum ∧ c.ifnum = port_at_ifnum)

/-- The path of the first call that satisfies `p`, if there is one. -/
def first_path (calls : List PortCall) (p : PortCall → Bool) : Option Bytes :=
  (calls.find? p).map (fun c => c.path)

/-! ## Manifest validation (`fu-firehose-updater.h`) -/

/-- Modelled from the spec: a `ManifestAction`, one action node of the
manifest.  The node type belongs to the firehose updater, whose source is not
part of these files; the spec lists what a node carries: target storage
identifier, offset, payload filename, and the payload size and checksum when
the manifest gives them. -/
structure ManifestAction where
  target : Bytes
  offset : Nat
  filename : Bytes
  size : Option Nat
  checksum : Option Bytes
deriving DecidableEq

/-- Modelled from the spec: the ways validation fails.  The body of
`fu_firehose_validate_rawprogram` is not part of these files; the spec names a
manifest that does not parse, a referenced filename missing from the bundle
and a declared size that differs from the size of the bundle entry. -/
inductive ValidationError where
  | manifest_not_parsed (e : GError)
  | missing_file (filename : Bytes)
  | size_mismatch (filename : Bytes) (declared actual : Nat)
deriving DecidableEq

/-- Modelled from the spec: the check of one action inside
`fu_firehose_validate_rawprogram`, whose body is not part of these files: the
referenced filename is resolved against the bundle, and a missing filename or a
declared size different from the size of the entry is a failure. -/
def validate_action (archive : List (Bytes × Bytes)) (action : ManifestAction) :
    Except ValidationError Unit :=
  match archive.find? (fun entry => entry.1 == action.filename) with
  | none => .error (.missing_file action.filename)
  | some entry =>
    match action.size with
    | none => .ok ()
    | some declared =>
      if declared = entry.2.length then .ok ()
      else .error (.size_mismatch action.filename declared entry.2.length)

/-- Modelled from the spec: the pass of `fu_firehose_validate_rawprogram` over
the actions in document order, whose body is not part of these files; the first
action that fails its check fails the whole manifest. -/
def validate_actions (archive : List (Bytes × Bytes)) :
    List ManifestAction → Except ValidationError Unit
  | [] => .ok ()
  | action :: rest =>
    match validate_action archive action with
    | .error e => .error e
    | .ok () => validate_actions archive rest

/-- Modelled from the spec: `fu_firehose_validate_rawprogram (rawprogram,
archive, &silo, &action_nodes, error)`, declared in `fu-firehose-updater.h`
with its body outside these files.  The manifest is parsed into its action
nodes in document order (`parse`, the document collaborator), every action is
checked against the bundle, and the action list is returned unchanged when all
checks pass; on any failure no action list is returned. -/
def fu_firehose_validate_rawprogram (parse : Bytes → Except GError (List ManifestAction))
    (rawprogram : Bytes) (archive : List (Bytes × Bytes)) :
    Except ValidationError (List ManifestAction) :=
  match parse rawprogram with
  | .error e => .error (.manifest_not_parsed e)
  | .ok actions =>
    match validate_actions archive actions with
    | .error e => .error e
    | .ok () => .ok actions

/-- The filename an action refers to is absent from the archive. -/
def file_absent (archive : List (Bytes × Bytes)) (action : ManifestAction) : Prop :=
  ∀ entry ∈ archive, entry.1 ≠ action.filename

/-- The size an action declares differs from the size of the archive entry of
its filename. -/
def size_differs (archive : List (Bytes × Bytes)) (action : ManifestAction) : Prop :=
  ∃ entry declared, archive.find? (fun entry => entry.1 == action.filename) = some entry ∧
    action.size = some declared ∧ declared ≠ entry.2.length

/-! ## Fixtures for concrete runs -/

/-- A platform with 64-bit little-endian `gsize`, `ioctl` available and a
re-enumerate remove delay of 10 s. -/
def platform64 : Platform :=
  { FU_DEVICE_REMOVE_DELAY_RE_ENUMERATE := 10000, sizeof_gsize := 8,
    big_endian := false, HAVE_IOCTL_H := true }

/-- An error raised by a collaborator. -/
def collaborator_error : GError :=
  { code := .external 1, message := "failed".toList }

/-- Every collaborator succeeds; the AT port answers `res` to every request and
the firmware unpacks to `archive`. -/
def env_ok (res : Bytes) (archive : List (Bytes × Bytes)) : Env :=
  { fu_device_locker_new := .ok (),
    fu_io_channel_new_file := fun _ => .ok (),
    fu_io_channel_shutdown := .ok (),
    at_port := fun _ => answers res,
    fu_archive_new := fun _ => .ok archive,
    fu_qmi_pdc_updater_open := fun _ => .ok (),
    fu_qmi_pdc_updater_write := fun _ _ => .ok (),
    fu_qmi_pdc_updater_close := .ok () }

/-- As `env_ok`, but the plain device lock cannot be taken. -/
def env_lock_fails : Env :=
  { env_ok AT_OK [] with fu_device_locker_new := .error collaborator_error }

/-- A device that advertises FASTBOOT, with its detach command and AT port. -/
def fastboot_device : FuMmDevice :=
  { update_methods := MM_MODEM_FIRMWARE_UPDATE_METHOD_FASTBOOT,
    detach_fastboot_at := some "AT+QFASTBOOT".toList,
    port_at := some "/dev/ttyUSB2".toList,
    port_at_ifnum := 2 }

/-- A device that advertises only RAW_IMAGE. -/
def raw_image_device : FuMmDevice :=
  { update_methods := MM_MODEM_FIRMWARE_UPDATE_METHOD_RAW_IMAGE }

/-- A device that advertises only CONFIG_DB, with its QMI port. -/
def qmi_pdc_device : FuMmDevice :=
  { update_methods := MM_MODEM_FIRMWARE_UPDATE_METHOD_QMI_PDC,
    port_qmi := some "/dev/cdc-wdm0".toList }

/-- Three configuration files, in archive order. -/
def archive3 : List (Bytes × Bytes) :=
  [("mcfg.A.mbn".toList, "a".toList), ("mcfg.B.mbn".toList, "b".toList),
   ("mcfg.C.mbn".toList, "c".toList)]

/-- The firmware unpacks to `archive3`; the updater rejects the second write. -/
def env_second_write_fails : Env :=
  { env_ok AT_OK archive3 with
    fu_qmi_pdc_updater_write := fun written _ =>
      if written.length = 1 then .error collaborator_error else .ok () }

/-- The bundle of the spec's example: a readme and two configuration files. -/
def archive_readme : List (Bytes × Bytes) :=
  [("readme.txt".toList, "r".toList), ("mcfg.A2.018.mbn".toList, "a".toList),
   ("mcfg.B1.mbn".toList, "b".toList)]

/-- A bundle whose only entry is named `mcfg.mbn`. -/
def archive_mcfg_mbn : List (Bytes × Bytes) :=
  [("mcfg.mbn".toList, "x".toList)]

/-- The log entries of writes that all succeeded. -/
def ok_writes (files : List FuMmFileInfo) : List Event :=
  files.map (fun f => Event.qmi_pdc_updater_write f (.ok ()))

/-- A boot host interface whose device reports emergency download mode. -/
def bhi_env_edl : BhiEnv :=
  { fu_io_channel_new_file := fun _ => .ok (),
    getdevinfo := ({ ret := 0, errno := 0 }, { bhi_ee := 0x6 }),
    writeimage := fun _ => { ret := 0, errno := 0 } }

/-- A boot host interface whose device reports execution environment `0x2`. -/
def bhi_env_not_edl : BhiEnv :=
  { bhi_env_edl with getdevinfo := ({ ret := 0, errno := 0 }, { bhi_ee := 0x2 }) }

def bhi_updater : FuMhiBhiUpdater :=
  fu_mhi_bhi_updater_new (some "/dev/mhi_BHI".toList)

/-- A udev-based device made with the FASTBOOT bit, a `NULL` detach command and
AT interface number 2, to which the tty port of interface 2 was added. -/
def udev_device_without_detach_command : FuMmDevice :=
  fu_mm_device_udev_add_port
    (fu_mm_device_udev_new "/sys/devices/usb1/1-1".toList (some "Quectel".toList)
      (some "EM160R".toList) (some "1.0".toList) ["USB-VID_2C7C".toList]
      MM_MODEM_FIRMWARE_UPDATE_METHOD_FASTBOOT none 2)
    "tty".toList "/dev/ttyUSB2".toList 2

/-- A modem that reports only the RAW_IMAGE update method, with device ids, a
version, an AT port and a QMI port. -/
def raw_image_modem : MMObject :=
  { device := some "/sys/devices/usb1/1-1".toList,
    update_settings :=
      { method := MM_MODEM_FIRMWARE_UPDATE_METHOD_RAW_IMAGE,
        fastboot_at := none,
        device_ids := some ["USB-VID_2C7C".toList],
        version := some "1.0".toList },
    ports := some [{ name := "ttyUSB2".toList, type := .AT },
                   { name := "cdc-wdm0".toList, type := .QMI }],
    manufacturer := some "Quectel".toList,
    model := some "EM160R".toList }

/-- A port information lookup that finds the device and interface 2. -/
def usb_port_info : Bytes → PortInfo :=
  fun _ => { device_sysfs_path := some "/sys/devices/usb1/1-1".toList, port_ifnum := some 2 }

/-- Three manifest actions A, B, C in document order. -/
def manifest_actions : List ManifestAction :=
  [{ target := "0".toList, offset := 0, filename := "a.bin".toList, size := some 3,
     checksum := none },
   { target := "0".toList, offset := 64, filename := "b.bin".toList, size := some 2,
     checksum := none },
   { target := "1".toList, offset := 0, filename := "c.bin".toList, size := none,
     checksum := none }]

/-- A manifest document whose action nodes are `manifest_actions`. -/
def parse_manifest : Bytes → Except GError (List ManifestAction) :=
  fun _ => .ok manifest_actions

/-- A bundle that holds the three files of `manifest_actions` with the declared
sizes, in another order. -/
def manifest_archive : List (Bytes × Bytes) :=
  [("c.bin".toList, "cccc".toList), ("a.bin".toList, "aaa".toList),
   ("b.bin".toList, "bb".toList)]

/-- A bundle in which `b.bin` is one byte longer than declared. -/
def manifest_archive_wrong_size : List (Bytes × Bytes) :=
  [("c.bin".toList, "cccc".toList), ("a.bin".toList, "aaa".toList),
   ("b.bin".toList, "bbb".toList)]

/-- The port events of a udev device: a net port, two cdc-wdm ports and three
tty ports, of which the second and third are on interface 2. -/
def port_calls : List PortCall :=
  [{ subsystem := "net".toList, path := "/dev/wwan0".toList, ifnum := 4 },
   { subsystem := "usbmisc".toList, path := "/dev/cdc-wdm0".toList, ifnum := 4 },
   { subsystem := "tty".toList, path := "/dev/ttyUSB0".toList, ifnum := 0 },
   { subsystem := "tty".toList, path := "/dev/ttyUSB2".toList, ifnum := 2 },
   { subsystem := "usbmisc".toList, path := "/dev/cdc-wdm1".toList, ifnum := 5 },
   { subsystem := "tty".toList, path := "/dev/ttyUSB9".toList, ifnum := 2 }]

/-! ## Theorems -/

/-! ### `fu_mm_device_at_cmd` -/

theorem AT_OK_length : AT_OK.length = 6 := by decide

theorem memcmp_ne_AT_OK (buf : Bytes) :
    memcmp_ne buf AT_OK 6 = false ↔ AT_OK <+: buf := by
  have h6 : AT_OK.take 6 = AT_OK := by decide
  rw [List.prefix_iff_eq_take, AT_OK_length]
  simp only [memcmp_ne, h6, bne_eq_false_iff_eq]
  exact eq_comm

/-- What `fu_mm_device_at_cmd` returns once the request was written and the
response `res` was read. -/
theorem at_cmd_of_response (io : Bytes → AtExchange) (cmd res : Bytes)
    (hw : (io (cmd ++ "\r\n".toList)).write = .ok ())
    (hr : (io (cmd ++ "\r\n".toList)).read = .ok res) :
    fu_mm_device_at_cmd io cmd =
      if res.length < 6 then
        .error { code := .FWUPD_ERROR_NOT_SUPPORTED,
                 message := "failed to read valid response for ".toList ++ cmd }
      else if memcmp_ne res AT_OK 6 then
        .error { code := .FWUPD_ERROR_NOT_SUPPORTED,
                 message := "failed to read valid response for ".toList ++ cmd
                              ++ ": ".toList ++ g_strndup (res.drop 2) (res.length - 4) }
      else .ok () := by
  simp only [fu_mm_device_at_cmd, hw, hr]

theorem at_cmd_ok_iff_of_response (io : Bytes → AtExchange) (cmd res : Bytes)
    (hw : (io (cmd ++ "\r\n".toList)).write = .ok ())
    (hr : (io (cmd ++ "\r\n".toList)).read = .ok res) :
    fu_mm_device_at_cmd io cmd = .ok () ↔ AT_OK <+: res := by
  rw [at_cmd_of_response io cmd res hw hr]
  constructor
  · intro h
    split_ifs at h with h1 h2
    exact (memcmp_ne_AT_OK res).1 (by simpa using h2)
  · intro h
    have hlen : 6 ≤ res.length := by
      have := h.length_le
      rwa [AT_OK_length] at this
    have h2 := (memcmp_ne_AT_OK res).2 h
    rw [if_neg (by omega), h2]
    simp

/-- C1, as stated, fails: the response `"\r\nOK\r\nX"` is not the six
acknowledgement bytes, yet `fu_mm_device_at_cmd` succeeds on it. -/
theorem at_cmd_accepts_longer_response :
    fu_mm_device_at_cmd (answers "\r\nOK\r\nX".toList) "AT".toList = .ok () ∧
      "\r\nOK\r\nX".toList ≠ AT_OK := by
  decide

/-- C1, amended: `fu_mm_device_at_cmd` succeeds if and only if the request was
written, a response was read, and the response begins with the six bytes
CR LF `O` `K` CR LF (so it has at least six bytes; what follows them is not
looked at). -/
theorem at_cmd_ok_iff_ack_prefix (io : Bytes → AtExchange) (cmd : Bytes) :
    fu_mm_device_at_cmd io cmd = .ok () ↔
      (io (cmd ++ "\r\n".toList)).write = .ok () ∧
        ∃ res, (io (cmd ++ "\r\n".toList)).read = .ok res ∧ AT_OK <+: res := by
  constructor
  · intro h
    cases hw : (io (cmd ++ "\r\n".toList)).write with
    | error e => simp only [fu_mm_device_at_cmd, hw, reduceCtorEq] at h
    | ok u =>
      cases hr : (io (cmd ++ "\r\n".toList)).read with
      | error e => simp only [fu_mm_device_at_cmd, hw, hr, reduceCtorEq] at h
      | ok res => exact ⟨rfl, res, rfl, (at_cmd_ok_iff_of_response io cmd res hw hr).1 h⟩
  · rintro ⟨hw, res, hr, hp⟩
    exact (at_cmd_ok_iff_of_response io cmd res hw hr).2 hp

theorem g_strndup_framed (body : Bytes) (hnul : NUL ∉ body) :
    g_strndup (("\r\n".toList ++ body ++ "\r\n".toList).drop 2)
      (("\r\n".toList ++ body ++ "\r\n".toList).length - 4) = body := by
  have h1 : ("\r\n".toList ++ body ++ "\r\n".toList).drop 2 = body ++ "\r\n".toList := by
    simp
  have h2 : ("\r\n".toList ++ body ++ "\r\n".toList).length - 4 = body.length := by
    simp
  rw [h1, h2, g_strndup, List.take_left']
  · rw [List.takeWhile_eq_self_iff]
    intro c hc
    have : c ≠ NUL := fun h => hnul (h ▸ hc)
    simpa using this
  · rfl

/-- C2, as stated, fails at three responses that are not the acknowledgement.
`"\r\nX\r\n"` (five bytes) fails with a message that does not contain its body
`X`; `"\r\nOK\r\nX"` does not fail at all; `"\r\nNO\0CARRIER\r\n"` fails with a
message that holds the body only up to its NUL byte. -/
theorem at_cmd_error_without_body :
    ("\r\nX\r\n".toList ≠ AT_OK ∧
      fu_mm_device_at_cmd (answers "\r\nX\r\n".toList) "AT".toList =
        .error { code := .FWUPD_ERROR_NOT_SUPPORTED,
                 message := "failed to read valid response for AT".toList } ∧
      ¬ "X".toList <:+: "failed to read valid response for AT".toList) ∧
    ("\r\nOK\r\nX".toList ≠ AT_OK ∧
      fu_mm_device_at_cmd (answers "\r\nOK\r\nX".toList) "AT".toList = .ok ()) ∧
    ("\r\nNO\x00CARRIER\r\n".toList ≠ AT_OK ∧
      fu_mm_device_at_cmd (answers "\r\nNO\x00CARRIER\r\n".toList) "AT".toList =
        .error { code := .FWUPD_ERROR_NOT_SUPPORTED,
                 message := "failed to read valid response for AT: NO".toList } ∧
      ¬ "NO\x00CARRIER".toList <:+: "failed to read valid response for AT: NO".toList) := by
  decide

/-- C2, amended: for every AT command and every response of at least six bytes
that does not begin with the acknowledgement, `fu_mm_device_at_cmd` fails with
the message `failed to read valid response for <cmd>: <tmp>`, where `<tmp>` is
the response without its first two and last two bytes, cut at its first NUL
byte if it has one; for a response `CR LF body CR LF` whose body has no NUL
byte, `<tmp>` is the body. -/
theorem at_cmd_error_carries_trimmed_response (cmd res : Bytes)
    (h6 : 6 ≤ res.length) (hn : ¬ AT_OK <+: res) :
    fu_mm_device_at_cmd (answers res) cmd =
        .error { code := .FWUPD_ERROR_NOT_SUPPORTED,
                 message := "failed to read valid response for ".toList ++ cmd ++ ": ".toList
                              ++ g_strndup (res.drop 2) (res.length - 4) } ∧
      g_strndup (res.drop 2) (res.length - 4) <:+:
        "failed to read valid response for ".toList ++ cmd ++ ": ".toList
          ++ g_strndup (res.drop 2) (res.length - 4) ∧
      ∀ body, res = "\r\n".toList ++ body ++ "\r\n".toList → NUL ∉ body →
        g_strndup (res.drop 2) (res.length - 4) = body := by
  refine ⟨?_, ?_, ?_⟩
  · rw [at_cmd_of_response (answers res) cmd res rfl rfl, if_neg (by omega)]
    have h2 : memcmp_ne res AT_OK 6 = true := by
      cases h : memcmp_ne res AT_OK 6
      · exact absurd ((memcmp_ne_AT_OK res).1 h) hn
      · rfl
    rw [h2]
    rfl
  · exact (List.suffix_append _ _).isInfix
  · intro body hres hnul
    subst hres
    exact g_strndup_framed body hnul

/-- The response `"\r\nERROR\r\n"` to the command `AT` gives a failure whose
message ends in the body `ERROR`. -/
theorem at_cmd_error_response_ERROR :
    6 ≤ "\r\nERROR\r\n".toList.length ∧ ¬ AT_OK <+: "\r\nERROR\r\n".toList ∧
      fu_mm_device_at_cmd (answers "\r\nERROR\r\n".toList) "AT".toList =
        .error { code := .FWUPD_ERROR_NOT_SUPPORTED,
                 message := "failed to read valid response for AT: ERROR".toList } := by
  refine ⟨by decide, by decide, ?_⟩
  have h := at_cmd_error_carries_trimmed_response "AT".toList "\r\nERROR\r\n".toList
    (by decide) (by decide)
  rw [h.2.2 "ERROR".toList rfl (by decide)] at h
  exact h.1

/-! ### `fu_mm_device_detach` -/

theorem io_open_fields (env : Env) (self : FuMmDevice) :
    (fu_mm_device_io_open env self).1.flags = self.flags ∧
      (fu_mm_device_io_open env self).1.remove_delay = self.remove_delay ∧
      (fu_mm_device_io_open env self).1.detach_fastboot_at = self.detach_fastboot_at := by
  unfold fu_mm_device_io_open
  cases env.fu_io_channel_new_file self.port_at <;> exact ⟨rfl, rfl, rfl⟩

theorem io_close_fields (env : Env) (self : FuMmDevice) :
    (fu_mm_device_io_close env self).1.flags = self.flags ∧
      (fu_mm_device_io_close env self).1.remove_delay = self.remove_delay := by
  unfold fu_mm_device_io_close
  cases env.fu_io_channel_shutdown <;> exact ⟨rfl, rfl⟩

theorem add_flag_mem (d : FuMmDevice) (f : FwupdDeviceFlag) :
    f ∈ (fu_device_add_flag d f).flags := by
  unfold fu_device_add_flag
  split_ifs with h
  · exact h
  · simp

theorem add_flag_remove_delay (d : FuMmDevice) (f : FwupdDeviceFlag) :
    (fu_device_add_flag d f).remove_delay = d.remove_delay := by
  unfold fu_device_add_flag
  split_ifs <;> rfl

/-- C3, as stated, fails: on a device without the FASTBOOT bit
`fu_mm_device_detach` returns the error of `fu_device_locker_new` when the
device lock cannot be taken. -/
theorem detach_fails_without_device_lock :
    has_method MM_MODEM_FIRMWARE_UPDATE_METHOD_QMI_PDC MM_MODEM_FIRMWARE_UPDATE_METHOD_FASTBOOT
        = false ∧
      (fu_mm_device_detach platform64 env_lock_fails qmi_pdc_device).result
        = .error collaborator_error := by
  decide

/-- C3, amended: for every device whose bitmask has the FASTBOOT bit unset,
`fu_mm_device_detach` makes no call on the AT port (it neither opens it nor
issues a command), leaves the device as it was, and returns what
`fu_device_locker_new` returned: success when the device lock is taken, the
lock error otherwise. -/
theorem detach_without_fastboot (p : Platform) (env : Env) (self : FuMmDevice)
    (h : has_method self.update_methods MM_MODEM_FIRMWARE_UPDATE_METHOD_FASTBOOT = false) :
    (fu_mm_device_detach p env self).log = [] ∧
      (fu_mm_device_detach p env self).dev = self ∧
      (fu_mm_device_detach p env self).result = env.fu_device_locker_new := by
  unfold fu_mm_device_detach
  cases env.fu_device_locker_new with
  | error e => exact ⟨rfl, rfl, rfl⟩
  | ok u => simp only [h]; exact ⟨rfl, rfl, rfl⟩

/-- A run of `detach_without_fastboot`: a CONFIG_DB-only device, lock taken. -/
theorem detach_without_fastboot_run :
    has_method qmi_pdc_device.update_methods MM_MODEM_FIRMWARE_UPDATE_METHOD_FASTBOOT = false ∧
      (fu_mm_device_detach platform64 (env_ok AT_OK []) qmi_pdc_device).log = [] ∧
      (fu_mm_device_detach platform64 (env_ok AT_OK []) qmi_pdc_device).dev = qmi_pdc_device ∧
      (fu_mm_device_detach platform64 (env_ok AT_OK []) qmi_pdc_device).result = .ok () :=
  ⟨by decide, detach_without_fastboot platform64 (env_ok AT_OK []) qmi_pdc_device (by decide)⟩

/-- With the AT port opened, `fu_mm_device_io_open` sets the channel. -/
theorem io_open_ok (env : Env) (self : FuMmDevice)
    (ho : env.fu_io_channel_new_file self.port_at = .ok ()) :
    fu_mm_device_io_open env self = ({ self with io_channel := true }, .ok ()) := by
  simp only [fu_mm_device_io_open, ho]

theorem io_open_error (env : Env) (self : FuMmDevice)
    (ho : env.fu_io_channel_new_file self.port_at ≠ .ok ()) :
    ∃ e, fu_mm_device_io_open env self = ({ self with io_channel := false }, .error e) := by
  unfold fu_mm_device_io_open
  cases h : env.fu_io_channel_new_file self.port_at with
  | error e => exact ⟨e, rfl⟩
  | ok u => exact absurd h ho

/-- What `fu_mm_device_detach` does on a device with the FASTBOOT bit, by the
outcome of the device lock, of opening the AT port and of the two commands. -/
theorem detach_fastboot_outcome (p : Platform) (env : Env) (self : FuMmDevice)
    (h : has_method self.update_methods MM_MODEM_FIRMWARE_UPDATE_METHOD_FASTBOOT = true) :
    (env.fu_device_locker_new ≠ .ok () ∨ env.fu_io_channel_new_file self.port_at ≠ .ok () →
        at_results (fu_mm_device_detach p env self).log = [] ∧
          (∃ e, (fu_mm_device_detach p env self).result = .error e) ∧
          (fu_mm_device_detach p env self).dev.remove_delay = self.remove_delay ∧
          (fu_mm_device_detach p env self).dev.flags = self.flags) ∧
      (env.fu_device_locker_new = .ok () →
        env.fu_io_channel_new_file self.port_at = .ok () →
        (fu_mm_device_detach p env self).log
            = [.io_channel_new_file self.port_at, .at_cmd "AT".toList (at_probe env)]
              ++ (if at_probe env = .ok () then
                    [.at_cmd (fmt_s self.detach_fastboot_at) (at_detach env self)]
                  else [])
              ++ [.io_channel_shutdown] ∧
          (at_probe env = .ok () → at_detach env self = .ok () →
            (fu_mm_device_detach p env self).result = .ok () ∧
              (fu_mm_device_detach p env self).dev.remove_delay
                = p.FU_DEVICE_REMOVE_DELAY_RE_ENUMERATE ∧
              FwupdDeviceFlag.WAIT_FOR_REPLUG ∈ (fu_mm_device_detach p env self).dev.flags) ∧
          (∀ e, at_probe env = .error e →
            (fu_mm_device_detach p env self).result = .error e ∧
              (fu_mm_device_detach p env self).dev.remove_delay = self.remove_delay ∧
              (fu_mm_device_detach p env self).dev.flags = self.flags) ∧
          (∀ e, at_probe env = .ok () → at_detach env self = .error e →
            (fu_mm_device_detach p env self).result
                = .error (g_prefix_error e "rebooting into fastboot not supported: ".toList) ∧
              (fu_mm_device_detach p env self).dev.remove_delay = self.remove_delay ∧
              (fu_mm_device_detach p env self).dev.flags = self.flags)) := by
  constructor
  · intro hfail
    unfold fu_mm_device_detach
    cases hl : env.fu_device_locker_new with
    | error e => exact ⟨rfl, ⟨e, rfl⟩, rfl, rfl⟩
    | ok u =>
      have hopen : env.fu_io_channel_new_file self.port_at ≠ .ok () := by
        rcases hfail with hf | hf
        · exact absurd hl hf
        · exact hf
      obtain ⟨e, he⟩ := io_open_error env self hopen
      simp only [h, if_true, fu_mm_device_detach_fastboot, he]
      refine ⟨?_, ?_, ?_, ?_⟩
      · rfl
      · exact ⟨e, rfl⟩
      · trivial
      · trivial
  · intro hl ho
    unfold fu_mm_device_detach at_probe at_detach
    simp only [hl, h, if_true, fu_mm_device_detach_fastboot, io_open_ok env self ho]
    cases h1 : fu_mm_device_at_cmd (env.at_port []) "AT".toList with
    | error e1 =>
      simp [io_locker_release, io_close_fields]
    | ok u1 =>
      cases h2 : fu_mm_device_at_cmd (env.at_port ["AT\r\n".toList])
          (fmt_s self.detach_fastboot_at) with
      | error e2 =>
        simp [io_locker_release, io_close_fields]
      | ok u2 =>
        simp [io_locker_release, io_close_fields, add_flag_mem, add_flag_remove_delay,
          fu_device_set_remove_delay]

/-- C9: for every device with the FASTBOOT bit set.  If the device lock or the
AT port cannot be had, no command is issued, detach fails and the remove delay
and flags are unchanged.  With both held, the calls on the port are: open,
`AT`, then the detach command of the device exactly when `AT` was acknowledged,
close.  If both commands are acknowledged detach succeeds with the
re-enumerate remove delay and the wait-for-replug flag set; if `AT` fails
detach fails with that error, if the detach command fails detach fails with its
error (prefixed), and in both cases the remove delay and flags are unchanged.
In terms of the port: when it accepts both requests and answers each with a
response that begins with the acknowledgement, both commands are issued in
that order and the device is marked; when its answer to `AT` does not begin
with the acknowledgement, `AT` is the only command issued and detach fails. -/
theorem detach_fastboot_sequence (p : Platform) (env : Env) (self : FuMmDevice)
    (h : has_method self.update_methods MM_MODEM_FIRMWARE_UPDATE_METHOD_FASTBOOT = true) :
    (env.fu_device_locker_new ≠ .ok () ∨ env.fu_io_channel_new_file self.port_at ≠ .ok () →
        at_results (fu_mm_device_detach p env self).log = [] ∧
          (∃ e, (fu_mm_device_detach p env self).result = .error e) ∧
          (fu_mm_device_detach p env self).dev.remove_delay = self.remove_delay ∧
          (fu_mm_device_detach p env self).dev.flags = self.flags) ∧
      (env.fu_device_locker_new = .ok () →
        env.fu_io_channel_new_file self.port_at = .ok () →
        (fu_mm_device_detach p env self).log
            = [.io_channel_new_file self.port_at, .at_cmd "AT".toList (at_probe env)]
              ++ (if at_probe env = .ok () then
                    [.at_cmd (fmt_s self.detach_fastboot_at) (at_detach env self)]
                  else [])
              ++ [.io_channel_shutdown] ∧
          (at_probe env = .ok () → at_detach env self = .ok () →
            (fu_mm_device_detach p env self).result = .ok () ∧
              (fu_mm_device_detach p env self).dev.remove_delay
                = p.FU_DEVICE_REMOVE_DELAY_RE_ENUMERATE ∧
              FwupdDeviceFlag.WAIT_FOR_REPLUG ∈ (fu_mm_device_detach p env self).dev.flags) ∧
          (∀ e, at_probe env = .error e →
            (fu_mm_device_detach p env self).result = .error e ∧
              (fu_mm_device_detach p env self).dev.remove_delay = self.remove_delay ∧
              (fu_mm_device_detach p env self).dev.flags = self.flags) ∧
          (∀ e, at_probe env = .ok () → at_detach env self = .error e →
            (fu_mm_device_detach p env self).result
                = .error (g_prefix_error e "rebooting into fastboot not supported: ".toList) ∧
              (fu_mm_device_detach p env self).dev.remove_delay = self.remove_delay ∧
              (fu_mm_device_detach p env self).dev.flags = self.flags)) ∧
      (env.fu_device_locker_new = .ok () →
        env.fu_io_channel_new_file self.port_at = .ok () →
        ∀ res1 res2,
          (env.at_port [] "AT\r\n".toList).write = .ok () →
          (env.at_port [] "AT\r\n".toList).read = .ok res1 → AT_OK <+: res1 →
          (env.at_port ["AT\r\n".toList]
            (fmt_s self.detach_fastboot_at ++ "\r\n".toList)).write = .ok () →
          (env.at_port ["AT\r\n".toList]
            (fmt_s self.detach_fastboot_at ++ "\r\n".toList)).read = .ok res2 →
          AT_OK <+: res2 →
          at_results (fu_mm_device_detach p env self).log
              = [("AT".toList, .ok ()), (fmt_s self.detach_fastboot_at, .ok ())] ∧
            (fu_mm_device_detach p env self).result = .ok () ∧
            (fu_mm_device_detach p env self).dev.remove_delay
              = p.FU_DEVICE_REMOVE_DELAY_RE_ENUMERATE ∧
            FwupdDeviceFlag.WAIT_FOR_REPLUG ∈ (fu_mm_device_detach p env self).dev.flags) ∧
      (env.fu_device_locker_new = .ok () →
        env.fu_io_channel_new_file self.port_at = .ok () →
        ∀ res1,
          (env.at_port [] "AT\r\n".toList).write = .ok () →
          (env.at_port [] "AT\r\n".toList).read = .ok res1 → ¬ AT_OK <+: res1 →
          at_cmds (fu_mm_device_detach p env self).log = ["AT".toList] ∧
            (∃ e, (fu_mm_device_detach p env self).result = .error e) ∧
            (fu_mm_device_detach p env self).dev.remove_delay = self.remove_delay ∧
            (fu_mm_device_detach p env self).dev.flags = self.flags) := by
  obtain ⟨ha, hb⟩ := detach_fastboot_outcome p env self h
  refine ⟨ha, hb, ?_, ?_⟩
  · intro hl ho res1 res2 hw1 hr1 hp1 hw2 hr2 hp2
    have h1 : at_probe env = .ok () :=
      (at_cmd_ok_iff_of_response _ _ res1 hw1 hr1).2 hp1
    have h2 : at_detach env self = .ok () :=
      (at_cmd_ok_iff_of_response _ _ res2 hw2 hr2).2 hp2
    obtain ⟨hlog, hok, -, -⟩ := hb hl ho
    refine ⟨?_, hok h1 h2⟩
    rw [hlog, h1, h2, if_pos rfl]
    rfl
  · intro hl ho res1 hw1 hr1 hp1
    have h1 : at_probe env ≠ .ok () :=
      fun hc => hp1 ((at_cmd_ok_iff_of_response _ _ res1 hw1 hr1).1 hc)
    obtain ⟨hlog, -, herr, -⟩ := hb hl ho
    cases hpr : at_probe env with
    | ok u => exact absurd hpr h1
    | error e =>
      refine ⟨?_, ⟨e, (herr e hpr).1⟩, (herr e hpr).2⟩
      rw [hlog, hpr, if_neg (by simp)]
      rfl

/-- A run of `detach_fastboot_sequence`: the port acknowledges both commands. -/
theorem detach_fastboot_run :
    has_method fastboot_device.update_methods MM_MODEM_FIRMWARE_UPDATE_METHOD_FASTBOOT = true ∧
      at_results (fu_mm_device_detach platform64 (env_ok AT_OK []) fastboot_device).log
        = [("AT".toList, .ok ()), ("AT+QFASTBOOT".toList, .ok ())] ∧
      (fu_mm_device_detach platform64 (env_ok AT_OK []) fastboot_device).result = .ok () ∧
      (fu_mm_device_detach platform64 (env_ok AT_OK []) fastboot_device).dev.remove_delay
        = 10000 ∧
      FwupdDeviceFlag.WAIT_FOR_REPLUG ∈
        (fu_mm_device_detach platform64 (env_ok AT_OK []) fastboot_device).dev.flags :=
  ⟨by decide,
    (detach_fastboot_sequence platform64 (env_ok AT_OK []) fastboot_device (by decide)).2.2.1
      rfl rfl AT_OK AT_OK rfl rfl (List.prefix_refl _) rfl rfl (List.prefix_refl _)⟩

/-- On the udev-based device without a detach command the second request is
the text `(null)`. -/
theorem detach_null_command_run :
    at_results (fu_mm_device_detach platform64 (env_ok AT_OK [])
        udev_device_without_detach_command).log
      = [("AT".toList, .ok ()), ("(null)".toList, .ok ())] := by
  decide

/-- A port that answers `ERROR`: only `AT` is issued, detach fails with the
error of that command, the device is unchanged. -/
theorem detach_probe_rejected_run :
    fu_mm_device_detach platform64 (env_ok "\r\nERROR\r\n".toList []) fastboot_device
      = { dev := fastboot_device,
          log := [.io_channel_new_file fastboot_device.port_at,
                  .at_cmd "AT".toList
                    (.error { code := .FWUPD_ERROR_NOT_SUPPORTED,
                              message :=
                                "failed to read valid response for AT: ERROR".toList }),
                  .io_channel_shutdown],
          result := .error { code := .FWUPD_ERROR_NOT_SUPPORTED,
                             message :=
                               "failed to read valid response for AT: ERROR".toList } } := by
  decide

/-! ### Selection of the configuration payloads -/

theorem iterate_mcfg_file_infos (ctx : FuMmArchiveIterateCtx) (filename bytes : Bytes) :
    (fu_mm_qmi_pdc_archive_iterate_mcfg ctx filename bytes).file_infos =
      ctx.file_infos ++
        (if is_mcfg filename then [{ filename := filename, bytes := bytes }] else []) := by
  unfold fu_mm_qmi_pdc_archive_iterate_mcfg is_mcfg
  cases g_str_has_prefix filename "mcfg.".toList <;>
    cases g_str_has_suffix filename ".mbn".toList <;> simp

theorem iterate_file_infos (archive : List (Bytes × Bytes)) (ctx : FuMmArchiveIterateCtx) :
    (fu_archive_iterate archive fu_mm_qmi_pdc_archive_iterate_mcfg ctx).file_infos =
      ctx.file_infos ++
        (archive.filter (fun entry => is_mcfg entry.1)).map
          (fun entry => { filename := entry.1, bytes := entry.2 }) := by
  induction archive generalizing ctx with
  | nil => simp [fu_archive_iterate]
  | cons entry rest ih =>
    have hstep : fu_archive_iterate (entry :: rest) fu_mm_qmi_pdc_archive_iterate_mcfg ctx =
        fu_archive_iterate rest fu_mm_qmi_pdc_archive_iterate_mcfg
          (fu_mm_qmi_pdc_archive_iterate_mcfg ctx entry.1 entry.2) := rfl
    rw [hstep, ih, iterate_mcfg_file_infos]
    cases h : is_mcfg entry.1 <;> simp [List.filter_cons, h]

/-- The selected files are the entries that pass the filename test, each once,
in archive order. -/
theorem selected_eq_filter (archive : List (Bytes × Bytes)) :
    selected archive =
      (archive.filter (fun entry => is_mcfg entry.1)).map
        (fun entry => { filename := entry.1, bytes := entry.2 }) := by
  unfold selected
  rw [iterate_file_infos]
  rfl

/-- The filename test passes exactly on the names of the form
`mcfg.<token>.mbn` and on the eight-byte name `mcfg.mbn`, in which the prefix
`mcfg.` and the suffix `.mbn` share the dot. -/
theorem is_mcfg_iff (filename : Bytes) :
    is_mcfg filename = true ↔
      spec_matches_mcfg filename ∨ filename = "mcfg.mbn".toList := by
  unfold is_mcfg g_str_has_prefix g_str_has_suffix spec_matches_mcfg
  rw [Bool.and_eq_true, List.isPrefixOf_iff_prefix, List.isSuffixOf_iff_suffix]
  constructor
  · rintro ⟨⟨r, hr⟩, ⟨s, hs⟩⟩
    have h := hr.trans hs.symm
    rw [List.append_eq_append_iff] at h
    rcases h with ⟨a, ha, hb⟩ | ⟨c, hc, hd⟩
    · left
      exact ⟨a, by rw [← hs, ha, List.append_assoc]⟩
    · have hc2 : s ++ c = ['m', 'c', 'f', 'g', '.'] := hc.symm
      have hd2 : c ++ r = ['.', 'm', 'b', 'n'] := hd.symm
      rcases s with _ | ⟨s0, _ | ⟨s1, _ | ⟨s2, _ | ⟨s3, _ | ⟨s4, _ | ⟨s5, s⟩⟩⟩⟩⟩⟩ <;>
        simp at hc2
      · subst hc2
        simp at hd2
      · obtain ⟨-, rfl⟩ := hc2
        simp at hd2
      · obtain ⟨-, -, rfl⟩ := hc2
        simp at hd2
      · obtain ⟨-, -, -, rfl⟩ := hc2
        simp at hd2
      · obtain ⟨-, -, -, -, rfl⟩ := hc2
        simp at hd2
        right
        rw [← hr, hd2]
        rfl
      · obtain ⟨-, -, -, -, -, rfl⟩ := hc2
        simp at hd2
        left
        exact ⟨[], by rw [← hr, hd2]; rfl⟩
  · rintro (⟨token, rfl⟩ | rfl)
    · exact ⟨⟨token ++ ".mbn".toList, by simp⟩, ⟨"mcfg.".toList ++ token, by simp⟩⟩
    · decide

theorem not_spec_matches_mcfg_mbn : ¬ spec_matches_mcfg "mcfg.mbn".toList := by
  rintro ⟨token, h⟩
  have hlen := congrArg List.length h
  simp at hlen

/-! ### The write loop -/

theorem written_files_append (l1 l2 : List Event) :
    written_files (l1 ++ l2) = written_files l1 ++ written_files l2 := by
  induction l1 with
  | nil => rfl
  | cons ev rest ih => cases ev <;> simp [written_files, ih]

theorem written_files_ok_writes (files : List FuMmFileInfo) :
    written_files (ok_writes files) = files := by
  induction files with
  | nil => rfl
  | cons f rest ih =>
    simp only [ok_writes, List.map_cons, written_files] at ih ⊢
    rw [ih]

theorem write_file_infos_all_ok (env : Env) (files written : List FuMmFileInfo)
    (hok : ∀ j f, files[j]? = some f →
      env.fu_qmi_pdc_updater_write (written ++ files.take j) f = .ok ()) :
    write_file_infos env written files = (ok_writes files, none) := by
  induction files generalizing written with
  | nil => rfl
  | cons f rest ih =>
    have h0 : env.fu_qmi_pdc_updater_write written f = .ok () := by
      simpa using hok 0 f (by simp)
    have hrest : ∀ j g, rest[j]? = some g →
        env.fu_qmi_pdc_updater_write ((written ++ [f]) ++ rest.take j) g = .ok () := by
      intro j g hj
      simpa using hok (j + 1) g (by simpa using hj)
    simp only [write_file_infos, h0, ih (written ++ [f]) hrest]
    rfl

theorem write_file_infos_first_failure (env : Env) (files written : List FuMmFileInfo)
    (k : Nat) (fk : FuMmFileInfo) (e : GError)
    (hk : files[k]? = some fk)
    (hok : ∀ j f, j < k → files[j]? = some f →
      env.fu_qmi_pdc_updater_write (written ++ files.take j) f = .ok ())
    (hfail : env.fu_qmi_pdc_updater_write (written ++ files.take k) fk = .error e) :
    write_file_infos env written files =
      (ok_writes (files.take k) ++ [.qmi_pdc_updater_write fk (.error e)], some e) := by
  induction files generalizing written k with
  | nil => simp at hk
  | cons f rest ih =>
    cases k with
    | zero =>
      have hf : f = fk := by simpa using hk
      subst hf
      have h0 : env.fu_qmi_pdc_updater_write written f = .error e := by
        simpa using hfail
      simp only [write_file_infos, h0]
      rfl
    | succ k =>
      have h0 : env.fu_qmi_pdc_updater_write written f = .ok () := by
        simpa using hok 0 f (Nat.succ_pos k) (by simp)
      have hrest : ∀ j g, j < k → rest[j]? = some g →
          env.fu_qmi_pdc_updater_write ((written ++ [f]) ++ rest.take j) g = .ok () := by
        intro j g hjk hj
        simpa using hok (j + 1) g (Nat.succ_lt_succ hjk) (by simpa using hj)
      have hk2 : rest[k]? = some fk := by simpa using hk
      have hfail2 : env.fu_qmi_pdc_updater_write ((written ++ [f]) ++ rest.take k) fk
          = .error e := by
        simpa using hfail
      simp only [write_file_infos, h0, ih (written ++ [f]) k hk2 hrest hfail2]
      rfl

/-- Once the archive is unpacked and the updater is open, the writes and the
result of `fu_mm_device_write_firmware_qmi_pdc` are those of its loop. -/
theorem write_firmware_qmi_pdc_of_loop (env : Env) (self : FuMmDevice) (fw : Bytes)
    (archive : List (Bytes × Bytes))
    (ha : env.fu_archive_new fw = .ok archive)
    (ho : env.fu_qmi_pdc_updater_open self.port_qmi = .ok ()) :
    written_files (fu_mm_device_write_firmware_qmi_pdc env self fw).log
        = written_files (write_file_infos env [] (selected archive)).1 ∧
      (fu_mm_device_write_firmware_qmi_pdc env self fw).result
        = match (write_file_infos env [] (selected archive)).2 with
          | some e => .error e
          | none => .ok () := by
  simp only [fu_mm_device_write_firmware_qmi_pdc, ha, fu_mm_device_qmi_open, ho]
  change
    written_files
        (match (write_file_infos env [] (selected archive)).2 with
          | some e => qmi_locker_release env _ _ (.error e)
          | none => qmi_locker_release env _ _ (.ok ())).log = _ ∧
      (match (write_file_infos env [] (selected archive)).2 with
          | some e => qmi_locker_release env _ _ (.error e)
          | none => qmi_locker_release env _ _ (.ok ())).result = _
  cases (write_file_infos env [] (selected archive)).2 <;>
    simp [qmi_locker_release, written_files_append, written_files, selected]

/-- C5: once the archive is unpacked and the updater is open, if the write of
the payload at index `k` (from 0) is the first that fails, with error `e`, then
`fu_mm_device_write_firmware_qmi_pdc` hands the updater exactly the payloads
`0..k`, in order and once each (`k + 1` attempts, none after the failure), and
fails with `e`; if no write fails it hands over every selected payload once,
in order, and succeeds. -/
theorem write_firmware_qmi_pdc_first_failure (env : Env) (self : FuMmDevice) (fw : Bytes)
    (archive : List (Bytes × Bytes))
    (ha : env.fu_archive_new fw = .ok archive)
    (ho : env.fu_qmi_pdc_updater_open self.port_qmi = .ok ()) :
    (∀ k fk e, (selected archive)[k]? = some fk →
        (∀ j f, j < k → (selected archive)[j]? = some f →
          env.fu_qmi_pdc_updater_write ((selected archive).take j) f = .ok ()) →
        env.fu_qmi_pdc_updater_write ((selected archive).take k) fk = .error e →
        written_files (fu_mm_device_write_firmware_qmi_pdc env self fw).log
            = (selected archive).take (k + 1) ∧
          (written_files (fu_mm_device_write_firmware_qmi_pdc env self fw).log).length
            = k + 1 ∧
          (fu_mm_device_write_firmware_qmi_pdc env self fw).result = .error e) ∧
      ((∀ j f, (selected archive)[j]? = some f →
          env.fu_qmi_pdc_updater_write ((selected archive).take j) f = .ok ()) →
        written_files (fu_mm_device_write_firmware_qmi_pdc env self fw).log
            = selected archive ∧
          (fu_mm_device_write_firmware_qmi_pdc env self fw).result = .ok ()) := by
  obtain ⟨hlog, hres⟩ := write_firmware_qmi_pdc_of_loop env self fw archive ha ho
  constructor
  · intro k fk e hk hok hfail
    have hw := write_file_infos_first_failure env (selected archive) [] k fk e hk
      (by simpa using hok) (by simpa using hfail)
    have hklt : k < (selected archive).length := by
      by_contra hge
      rw [List.getElem?_eq_none (by omega)] at hk
      exact absurd hk (by simp)
    have htake : (selected archive).take (k + 1) = (selected archive).take k ++ [fk] := by
      rw [List.take_succ, hk]
      rfl
    have hl : written_files (fu_mm_device_write_firmware_qmi_pdc env self fw).log
        = (selected archive).take (k + 1) := by
      rw [hlog, hw, htake, written_files_append, written_files_ok_writes]
      rfl
    refine ⟨hl, ?_, ?_⟩
    · rw [hl, List.length_take]
      omega
    · rw [hres, hw]
  · intro hok
    have hw := write_file_infos_all_ok env (selected archive) [] (by simpa using hok)
    constructor
    · rw [hlog, hw, written_files_ok_writes]
    · rw [hres, hw]

/-- A run of `write_firmware_qmi_pdc_first_failure`: three matching files, the
second write fails; two writes are attempted and its error is returned. -/
theorem write_firmware_qmi_pdc_second_write_fails :
    env_second_write_fails.fu_archive_new [] = .ok archive3 ∧
      env_second_write_fails.fu_qmi_pdc_updater_open qmi_pdc_device.port_qmi = .ok () ∧
      written_files (fu_mm_device_write_firmware_qmi_pdc env_second_write_fails
          qmi_pdc_device []).log
        = (selected archive3).take 2 ∧
      (written_files (fu_mm_device_write_firmware_qmi_pdc env_second_write_fails
          qmi_pdc_device []).log).length = 2 ∧
      (fu_mm_device_write_firmware_qmi_pdc env_second_write_fails qmi_pdc_device []).result
        = .error collaborator_error :=
  ⟨rfl, rfl,
    (write_firmware_qmi_pdc_first_failure env_second_write_fails qmi_pdc_device [] archive3
      rfl rfl).1 1 { filename := "mcfg.B.mbn".toList, bytes := "b".toList } collaborator_error
      (by decide)
      (fun j f hj _ => by
        have hj0 : j = 0 := by omega
        subst hj0
        rfl)
      (by decide)⟩

/-- C4, at the failing input: the name `mcfg.mbn` is not of the form
`mcfg.<token>.mbn` for any token, yet `fu_mm_device_write_firmware_qmi_pdc`
hands the entry of that name to the config writer. -/
theorem write_firmware_qmi_pdc_writes_mcfg_mbn :
    ¬ spec_matches_mcfg "mcfg.mbn".toList ∧
      written_files (fu_mm_device_write_firmware_qmi_pdc (env_ok AT_OK archive_mcfg_mbn)
          qmi_pdc_device []).log
        = [{ filename := "mcfg.mbn".toList, bytes := "x".toList }] :=
  ⟨not_spec_matches_mcfg_mbn, by decide⟩

/-- With every collaborator succeeding, the payloads handed to the config
writer are the entries that pass the filename test, each once, in archive
order. -/
theorem write_firmware_qmi_pdc_payloads (env : Env) (self : FuMmDevice) (fw : Bytes)
    (archive : List (Bytes × Bytes))
    (ha : env.fu_archive_new fw = .ok archive)
    (ho : env.fu_qmi_pdc_updater_open self.port_qmi = .ok ())
    (hw : ∀ written f, env.fu_qmi_pdc_updater_write written f = .ok ()) :
    written_files (fu_mm_device_write_firmware_qmi_pdc env self fw).log =
      (archive.filter (fun entry => is_mcfg entry.1)).map
        (fun entry => { filename := entry.1, bytes := entry.2 }) := by
  rw [← selected_eq_filter, (write_firmware_qmi_pdc_of_loop env self fw archive ha ho).1,
    write_file_infos_all_ok env (selected archive) [] (fun j f _ => hw _ f),
    written_files_ok_writes]

/-- The example of the spec: of `readme.txt`, `mcfg.A2.018.mbn`, `mcfg.B1.mbn`
the two configuration files are written, in that order. -/
theorem write_firmware_qmi_pdc_readme :
    written_files (fu_mm_device_write_firmware_qmi_pdc (env_ok AT_OK archive_readme)
        qmi_pdc_device []).log
      = [{ filename := "mcfg.A2.018.mbn".toList, bytes := "a".toList },
         { filename := "mcfg.B1.mbn".toList, bytes := "b".toList }] := by
  decide

/-! ### `fu_mm_device_write_firmware` -/

/-- C8, as stated, fails: on a device that advertises only RAW_IMAGE
`fu_mm_device_write_firmware` returns the error of `fu_device_locker_new` when
the device lock cannot be taken. -/
theorem write_firmware_fails_without_device_lock :
    has_method raw_image_device.update_methods MM_MODEM_FIRMWARE_UPDATE_METHOD_QMI_PDC
        = false ∧
      (fu_mm_device_write_firmware env_lock_fails raw_image_device []).result
        = .error collaborator_error := by
  decide

/-- C8, amended: for every device whose bitmask has the CONFIG_DB bit unset and
every firmware bundle, `fu_mm_device_write_firmware` makes no call on the
archive or the config writer, leaves the device as it was, and returns what
`fu_device_locker_new` returned (success when the device lock is taken); when
the bit is set and the device lock is taken, its outcome is that of
`fu_mm_device_write_firmware_qmi_pdc`. -/
theorem write_firmware_dispatch (env : Env) (self : FuMmDevice) (fw : Bytes) :
    (has_method self.update_methods MM_MODEM_FIRMWARE_UPDATE_METHOD_QMI_PDC = false →
        (fu_mm_device_write_firmware env self fw).log = [] ∧
          (fu_mm_device_write_firmware env self fw).dev = self ∧
          (fu_mm_device_write_firmware env self fw).result = env.fu_device_locker_new) ∧
      (has_method self.update_methods MM_MODEM_FIRMWARE_UPDATE_METHOD_QMI_PDC = true →
        env.fu_device_locker_new = .ok () →
        fu_mm_device_write_firmware env self fw
          = fu_mm_device_write_firmware_qmi_pdc env self fw) := by
  unfold fu_mm_device_write_firmware
  constructor
  · intro h
    cases env.fu_device_locker_new with
    | error e => exact ⟨rfl, rfl, rfl⟩
    | ok u => simp only [h]; exact ⟨rfl, rfl, rfl⟩
  · intro h hl
    simp only [hl, h, if_true]

/-- A run of `write_firmware_dispatch`: a RAW_IMAGE-only device, lock taken. -/
theorem write_firmware_raw_image_run :
    has_method raw_image_device.update_methods MM_MODEM_FIRMWARE_UPDATE_METHOD_QMI_PDC
        = false ∧
      (fu_mm_device_write_firmware (env_ok AT_OK archive3) raw_image_device []).log = [] ∧
      (fu_mm_device_write_firmware (env_ok AT_OK archive3) raw_image_device []).dev
        = raw_image_device ∧
      (fu_mm_device_write_firmware (env_ok AT_OK archive3) raw_image_device []).result
        = .ok () :=
  ⟨by decide,
    (write_firmware_dispatch (env_ok AT_OK archive3) raw_image_device []).1 (by decide)⟩

/-! ### Boot host interface updater -/

theorem toNat_ofNat_byte (b : Nat) (h : b < 256) : (Char.ofNat b).toNat = b := by
  have hv : b.isValidChar := Or.inl (by omega)
  simp only [Char.ofNat, hv, dite_true]
  simp [Char.toNat, Char.ofNatAux, UInt32.toNat]

theorem le_bytes_length (width n : Nat) : (le_bytes width n).length = width := by
  induction width generalizing n with
  | zero => rfl
  | succ w ih => simp [le_bytes, ih]

theorem le_bytes_lt (width n : Nat) : ∀ b ∈ le_bytes width n, b < 256 := by
  induction width generalizing n with
  | zero => simp [le_bytes]
  | succ w ih =>
    intro b hb
    simp only [le_bytes, List.mem_cons] at hb
    rcases hb with rfl | hb
    · exact Nat.mod_lt _ (by norm_num)
    · exact ih _ b hb

theorem le_value_le_bytes (width n : Nat) : le_value (le_bytes width n) = n % 256 ^ width := by
  induction width generalizing n with
  | zero => simp [le_bytes, le_value, Nat.mod_one]
  | succ w ih =>
    simp only [le_bytes, le_value, ih]
    rw [pow_succ, Nat.mul_comm (256 ^ w) 256, Nat.mod_mul]

theorem map_toNat_ofNat (l : List Nat) (h : ∀ b ∈ l, b < 256) :
    (l.map Char.ofNat).map Char.toNat = l := by
  induction l with
  | nil => rfl
  | cons b rest ih =>
    simp only [List.map_cons]
    rw [toNat_ofNat_byte b (h b (List.mem_cons_self _ _)),
      ih (fun c hc => h c (List.mem_cons_of_mem _ hc))]

theorem gsize_bytes_length (p : Platform) (n : Nat) :
    (gsize_bytes p n).length = p.sizeof_gsize := by
  unfold gsize_bytes
  cases p.big_endian <;> simp [le_bytes_length]

/-- Reading back the object representation of a `gsize` gives the value
modulo `2 ^ (8 * sizeof (gsize))`. -/
theorem gsize_value_bytes (p : Platform) (n : Nat) :
    gsize_value p (gsize_bytes p n) = n % 256 ^ p.sizeof_gsize := by
  unfold gsize_value gsize_bytes
  cases p.big_endian
  · simp only [Bool.false_eq_true, if_false]
    rw [map_toNat_ofNat _ (le_bytes_lt _ _), le_value_le_bytes]
  · simp only [if_true, List.reverse_reverse]
    rw [map_toNat_ofNat _ (le_bytes_lt _ _), le_value_le_bytes]

/-- C6: for every image whose length fits a `gsize`, `fu_mhi_bhi_updater_write`
makes exactly one call, the `IOCTL_BHI_WRITEIMAGE` ioctl, on a buffer of
`len (image) + sizeof (gsize)` bytes whose first `sizeof (gsize)` bytes are the
host-order representation of `len (image)` and whose other bytes are the
image; dropping the prefix gives back the image and reading the prefix gives
back its length. -/
theorem bhi_write_single_ioctl (p : Platform) (env : BhiEnv) (self : FuMhiBhiUpdater)
    (blob : Bytes) (hfit : blob.length < 256 ^ p.sizeof_gsize) :
    ∃ buffer,
      (fu_mhi_bhi_updater_write p env self blob).log
          = [.ioctl_buffer IOCTL_BHI_WRITEIMAGE buffer] ∧
        buffer.length = blob.length + p.sizeof_gsize ∧
        buffer.take p.sizeof_gsize = gsize_bytes p blob.length ∧
        buffer.drop p.sizeof_gsize = blob ∧
        gsize_value p (buffer.take p.sizeof_gsize) = blob.length := by
  refine ⟨gsize_bytes p blob.length ++ blob, ?_, ?_, ?_, ?_, ?_⟩
  · unfold fu_mhi_bhi_updater_write
    simp only
    split_ifs <;> rfl
  · rw [List.length_append, gsize_bytes_length, Nat.add_comm]
  · rw [List.take_left' (gsize_bytes_length p _)]
  · rw [List.drop_left' (gsize_bytes_length p _)]
  · rw [List.take_left' (gsize_bytes_length p _), gsize_value_bytes, Nat.mod_eq_of_lt hfit]

/-- A run of `bhi_write_single_ioctl` on the three-byte image `ABC`. -/
theorem bhi_write_run :
    "ABC".toList.length < 256 ^ platform64.sizeof_gsize ∧
      ∃ buffer,
        (fu_mhi_bhi_updater_write platform64 bhi_env_edl bhi_updater "ABC".toList).log
            = [.ioctl_buffer IOCTL_BHI_WRITEIMAGE buffer] ∧
          buffer.length = "ABC".toList.length + platform64.sizeof_gsize ∧
          buffer.take platform64.sizeof_gsize
            = gsize_bytes platform64 "ABC".toList.length ∧
          buffer.drop platform64.sizeof_gsize = "ABC".toList ∧
          gsize_value platform64 (buffer.take platform64.sizeof_gsize)
            = "ABC".toList.length :=
  ⟨by decide, bhi_write_single_ioctl platform64 bhi_env_edl bhi_updater "ABC".toList (by decide)⟩

/-- On a 64-bit little-endian host the image `ABC` goes out as the eight bytes
`03 00 00 00 00 00 00 00` followed by `ABC`. -/
theorem bhi_write_ABC :
    (fu_mhi_bhi_updater_write platform64 bhi_env_edl bhi_updater "ABC".toList).log
      = [.ioctl_buffer IOCTL_BHI_WRITEIMAGE "\x03\x00\x00\x00\x00\x00\x00\x00ABC".toList] := by
  decide

/-- C7: in a build with `ioctl`, `fu_mhi_bhi_updater_open` succeeds if and only
if the channel was opened, the device-info ioctl returned 0 and the reported
execution environment is `0x6`; when the channel was opened and the ioctl
returned 0 with any other code it fails with `G_IO_ERROR_NOT_INITIALIZED`; and
it never makes an ioctl that hands over a buffer (no write). -/
theorem bhi_open_ok_iff (p : Platform) (env : BhiEnv) (self : FuMhiBhiUpdater)
    (hioctl : p.HAVE_IOCTL_H = true) :
    ((fu_mhi_bhi_updater_open p env self).result = .ok () ↔
        env.fu_io_channel_new_file self.port = .ok () ∧ env.getdevinfo.1.ret = 0 ∧
          env.getdevinfo.2.bhi_ee = 0x6) ∧
      (env.fu_io_channel_new_file self.port = .ok () → env.getdevinfo.1.ret = 0 →
        env.getdevinfo.2.bhi_ee ≠ 0x6 →
        ∃ message, (fu_mhi_bhi_updater_open p env self).result
          = .error { code := .G_IO_ERROR_NOT_INITIALIZED, message := message }) ∧
      (∀ request buffer,
        BhiEvent.ioctl_buffer request buffer ∉ (fu_mhi_bhi_updater_open p env self).log) := by
  unfold fu_mhi_bhi_updater_open
  simp only [hioctl, if_true]
  cases hn : env.fu_io_channel_new_file self.port with
  | error e => simp
  | ok u =>
    by_cases hret : env.getdevinfo.1.ret = 0
    · by_cases hee : env.getdevinfo.2.bhi_ee = MHI_EE_EDL
      · simp [hret, hee, MHI_EE_EDL]
      · have hee6 : ¬ env.getdevinfo.2.bhi_ee = 6 := hee
        simp [hret, hee, hee6]
    · simp [hret]

/-- A run of `bhi_open_ok_iff`: the device reports `0x6` and open succeeds. -/
theorem bhi_open_run :
    platform64.HAVE_IOCTL_H = true ∧
      (fu_mhi_bhi_updater_open platform64 bhi_env_edl bhi_updater).result = .ok () :=
  ⟨rfl, (bhi_open_ok_iff platform64 bhi_env_edl bhi_updater rfl).1.2 ⟨rfl, rfl, rfl⟩⟩

/-- A device that reports execution environment `0x2` is refused. -/
theorem bhi_open_not_edl :
    fu_mhi_bhi_updater_open platform64 bhi_env_not_edl bhi_updater =
      { updater := { bhi_updater with io_channel := true },
        log := [.io_channel_new_file bhi_updater.port, .ioctl_query IOCTL_BHI_GETDEVINFO],
        result := .error
          { code := .G_IO_ERROR_NOT_INITIALIZED,
            message :=
              "Device is not in emergency download mode: 0x2 (expected 0x6)".toList } } := by
  decide

/-! ### Probe -/

theorem foldl_add_guid_fields (ids : List Bytes) (d : FuMmDevice) :
    (ids.foldl fu_device_add_guid d).update_methods = d.update_methods ∧
      (ids.foldl fu_device_add_guid d).detach_fastboot_at = d.detach_fastboot_at ∧
      (ids.foldl fu_device_add_guid d).port_at = d.port_at ∧
      (ids.foldl fu_device_add_guid d).port_qmi = d.port_qmi := by
  induction ids generalizing d with
  | nil => exact ⟨rfl, rfl, rfl, rfl⟩
  | cons id rest ih =>
    obtain ⟨h1, h2, h3, h4⟩ := ih (fu_device_add_guid d id)
    exact ⟨h1, h2, h3, h4⟩

theorem probe_default_finish_fields (self d : FuMmDevice) (omodem : MMObject)
    (version : Bytes) (ids : List Bytes) (path : Option Bytes)
    (h : probe_default_finish self omodem version ids path = .returned d (.ok ())) :
    d.update_methods = self.update_methods ∧ d.detach_fastboot_at = self.detach_fastboot_at ∧
      d.port_at = self.port_at ∧ d.port_qmi = self.port_qmi := by
  unfold probe_default_finish at h
  cases path with
  | none => simp at h
  | some p =>
    simp only [Probe.returned.injEq, and_true] at h
    subst h
    exact foldl_add_guid_fields ids _

theorem find_ports_fields (self : FuMmDevice) (ports : List MMModemPortInfo) :
    (probe_default_find_ports self ports).update_methods = self.update_methods ∧
      (probe_default_find_ports self ports).detach_fastboot_at = self.detach_fastboot_at := by
  unfold probe_default_find_ports
  simp only
  repeat' split
  all_goals exact ⟨rfl, rfl⟩

theorem check_ports_fields (get_port_info : Bytes → PortInfo) (self d : FuMmDevice)
    (omodem : MMObject) (version : Bytes) (ids : List Bytes)
    (h : probe_default_check_ports get_port_info self omodem version ids
      = .returned d (.ok ())) :
    d.update_methods = self.update_methods ∧ d.detach_fastboot_at = self.detach_fastboot_at ∧
      (has_method self.update_methods MM_MODEM_FIRMWARE_UPDATE_METHOD_FASTBOOT = true →
        d.port_at ≠ none) ∧
      (has_method self.update_methods MM_MODEM_FIRMWARE_UPDATE_METHOD_QMI_PDC = true →
        d.port_qmi ≠ none) := by
  unfold probe_default_check_ports at h
  by_cases h1 : has_method self.update_methods MM_MODEM_FIRMWARE_UPDATE_METHOD_FASTBOOT = true
      ∧ self.port_at = none
  · rw [if_pos h1] at h
    simp at h
  rw [if_neg h1] at h
  by_cases h2 : has_method self.update_methods MM_MODEM_FIRMWARE_UPDATE_METHOD_QMI_PDC = true
      ∧ self.port_qmi = none
  · rw [if_pos h2] at h
    simp at h
  rw [if_neg h2] at h
  have hat : has_method self.update_methods MM_MODEM_FIRMWARE_UPDATE_METHOD_FASTBOOT = true →
      self.port_at ≠ none := fun hF hn => h1 ⟨hF, hn⟩
  have hqmi : has_method self.update_methods MM_MODEM_FIRMWARE_UPDATE_METHOD_QMI_PDC = true →
      self.port_qmi ≠ none := fun hQ hn => h2 ⟨hQ, hn⟩
  split at h
  · obtain ⟨e1, e2, e3, e4⟩ := probe_default_finish_fields _ _ _ _ _ _ h
    refine ⟨?_, ?_, ?_, ?_⟩
    · rw [e1]; split <;> rfl
    · rw [e2]; split <;> rfl
    · intro hF
      rw [e3]
      have := hat hF
      split <;> exact this
    · intro hQ
      rw [e4]
      have := hqmi hQ
      split <;> exact this
  · obtain ⟨e1, e2, e3, e4⟩ := probe_default_finish_fields _ _ _ _ _ _ h
    exact ⟨e1, e2, fun hF => e3 ▸ hat hF, fun hQ => e4 ▸ hqmi hQ⟩
  · simp at h

/-- A device on which `fu_mm_device_probe_default` succeeds satisfies the
invariant. -/
theorem probe_default_invariant (get_port_info : Bytes → PortInfo) (self d : FuMmDevice)
    (omodem : MMObject)
    (h : fu_mm_device_probe_default get_port_info self omodem = .returned d (.ok ())) :
    spec_device_invariant d := by
  unfold fu_mm_device_probe_default at h
  simp only at h
  by_cases h1 : omodem.update_settings.method = MM_MODEM_FIRMWARE_UPDATE_METHOD_NONE
  · rw [if_pos h1] at h
    simp at h
  rw [if_neg h1] at h
  by_cases h2 : has_method omodem.update_settings.method
      MM_MODEM_FIRMWARE_UPDATE_METHOD_FASTBOOT = true ∧ omodem.update_settings.fastboot_at = none
  · rw [if_pos h2] at h
    simp at h
  rw [if_neg h2] at h
  split at h
  · simp at h
  · simp at h
  · split at h
    · simp at h
    · split at h
      · simp at h
      · generalize hs : (if has_method omodem.update_settings.method
            MM_MODEM_FIRMWARE_UPDATE_METHOD_FASTBOOT = true then _ else _ : FuMmDevice) = s1 at h
        have hs_m : s1.update_methods = omodem.update_settings.method := by
          rw [← hs]
          split <;> rfl
        have hs_d : has_method omodem.update_settings.method
            MM_MODEM_FIRMWARE_UPDATE_METHOD_FASTBOOT = true →
            s1.detach_fastboot_at = omodem.update_settings.fastboot_at := by
          intro hF
          rw [← hs, if_pos hF]
        obtain ⟨e1, e2, e3, e4⟩ := check_ports_fields _ _ _ _ _ _ h
        rw [(find_ports_fields _ _).1, hs_m] at e1 e3 e4
        rw [(find_ports_fields _ _).2] at e2
        rw [← e1] at e3 e4 hs_d h2
        exact ⟨fun hF => ⟨by rw [e2, hs_d hF]; exact fun hn => h2 ⟨hF, hn⟩, e3 hF⟩, e4⟩

/-- A device on which `fu_mm_device_probe_udev` succeeds has the ports the
invariant asks for; its detach command is not looked at. -/
theorem probe_udev_ports (self : FuMmDevice) (h : fu_mm_device_probe_udev self = .ok ()) :
    (has_method self.update_methods MM_MODEM_FIRMWARE_UPDATE_METHOD_FASTBOOT = true →
        self.port_at ≠ none) ∧
      (has_method self.update_methods MM_MODEM_FIRMWARE_UPDATE_METHOD_QMI_PDC = true →
        self.port_qmi ≠ none) := by
  unfold fu_mm_device_probe_udev at h
  by_cases h1 : has_method self.update_methods MM_MODEM_FIRMWARE_UPDATE_METHOD_FASTBOOT = true
      ∧ self.port_at = none
  · rw [if_pos h1] at h
    simp at h
  by_cases h2 : has_method self.update_methods MM_MODEM_FIRMWARE_UPDATE_METHOD_QMI_PDC = true
      ∧ self.port_qmi = none
  · rw [if_neg h1, if_pos h2] at h
    simp at h
  exact ⟨fun hF hn => h1 ⟨hF, hn⟩, fun hQ hn => h2 ⟨hQ, hn⟩⟩

/-- C11, at the failing input: a modem reports the update method RAW_IMAGE = 4
alone, with device ids, a version and its ports; neither an AT nor a QMI port
is resolved, and `fu_mm_device_probe_default` (and so `fu_mm_device_probe`)
reaches `g_assert_not_reached ()` and aborts instead of returning. -/
theorem probe_default_aborts_on_raw_image :
    has_method raw_image_modem.update_settings.method MM_MODEM_FIRMWARE_UPDATE_METHOD_FASTBOOT
        = false ∧
      has_method raw_image_modem.update_settings.method MM_MODEM_FIRMWARE_UPDATE_METHOD_QMI_PDC
        = false ∧
      fu_mm_device_probe_default usb_port_info (fu_mm_device_new raw_image_modem)
        raw_image_modem = .aborted ∧
      fu_mm_device_probe usb_port_info (fu_mm_device_new raw_image_modem) = .aborted := by
  decide

/-- Without the FASTBOOT and the CONFIG_DB bit no port is looked for. -/
theorem find_ports_of_no_method (self : FuMmDevice) (ports : List MMModemPortInfo)
    (hF : has_method self.update_methods MM_MODEM_FIRMWARE_UPDATE_METHOD_FASTBOOT = false)
    (hQ : has_method self.update_methods MM_MODEM_FIRMWARE_UPDATE_METHOD_QMI_PDC = false) :
    probe_default_find_ports self ports = self := by
  simp only [probe_default_find_ports, hF, hQ, Bool.false_eq_true, if_false]

/-- Every non-empty bitmask with neither the FASTBOOT nor the CONFIG_DB bit
aborts the probe of a device without ports, once device ids, a version and the
port list were obtained. -/
theorem probe_default_aborts (get_port_info : Bytes → PortInfo) (self : FuMmDevice)
    (omodem : MMObject) (id0 version : Bytes) (ids : List Bytes) (ports : List MMModemPortInfo)
    (hne : omodem.update_settings.method ≠ MM_MODEM_FIRMWARE_UPDATE_METHOD_NONE)
    (hF : has_method omodem.update_settings.method MM_MODEM_FIRMWARE_UPDATE_METHOD_FASTBOOT
      = false)
    (hQ : has_method omodem.update_settings.method MM_MODEM_FIRMWARE_UPDATE_METHOD_QMI_PDC
      = false)
    (hids : omodem.update_settings.device_ids = some (id0 :: ids))
    (hver : omodem.update_settings.version = some version)
    (hports : omodem.ports = some ports)
    (hat : self.port_at = none) (hqmi : self.port_qmi = none) :
    fu_mm_device_probe_default get_port_info self omodem = .aborted := by
  unfold fu_mm_device_probe_default
  simp only [hne, hF, hQ, hids, hver, hports, Bool.false_eq_true, if_false, false_and]
  rw [find_ports_of_no_method _ _ hF hQ]
  simp only [probe_default_check_ports, hF, hQ, hat, hqmi, Bool.false_eq_true, if_false,
    false_and]

theorem probe_default_finish_returns (self : FuMmDevice) (omodem : MMObject)
    (version : Bytes) (ids : List Bytes) (path : Option Bytes) :
    probe_default_finish self omodem version ids path ≠ .aborted := by
  unfold probe_default_finish
  cases path <;> simp

theorem check_ports_returns (get_port_info : Bytes → PortInfo) (self : FuMmDevice)
    (omodem : MMObject) (version : Bytes) (ids : List Bytes)
    (h : has_method self.update_methods MM_MODEM_FIRMWARE_UPDATE_METHOD_FASTBOOT = true ∨
      has_method self.update_methods MM_MODEM_FIRMWARE_UPDATE_METHOD_QMI_PDC = true) :
    probe_default_check_ports get_port_info self omodem version ids ≠ .aborted := by
  unfold probe_default_check_ports
  by_cases h1 : has_method self.update_methods MM_MODEM_FIRMWARE_UPDATE_METHOD_FASTBOOT = true
      ∧ self.port_at = none
  · rw [if_pos h1]
    simp
  rw [if_neg h1]
  by_cases h2 : has_method self.update_methods MM_MODEM_FIRMWARE_UPDATE_METHOD_QMI_PDC = true
      ∧ self.port_qmi = none
  · rw [if_pos h2]
    simp
  rw [if_neg h2]
  split
  · exact probe_default_finish_returns _ _ _ _ _
  · exact probe_default_finish_returns _ _ _ _ _
  · rename_i hat hqmi
    rcases h with hF | hQ
    · exact absurd ⟨hF, hat⟩ h1
    · exact absurd ⟨hQ, hqmi⟩ h2

/-- With the FASTBOOT or the CONFIG_DB bit set, `fu_mm_device_probe_default`
returns (in success or with an error). -/
theorem probe_default_returns (get_port_info : Bytes → PortInfo) (self : FuMmDevice)
    (omodem : MMObject)
    (h : has_method omodem.update_settings.method MM_MODEM_FIRMWARE_UPDATE_METHOD_FASTBOOT
        = true ∨
      has_method omodem.update_settings.method MM_MODEM_FIRMWARE_UPDATE_METHOD_QMI_PDC
        = true) :
    fu_mm_device_probe_default get_port_info self omodem ≠ .aborted := by
  unfold fu_mm_device_probe_default
  simp only
  by_cases h1 : omodem.update_settings.method = MM_MODEM_FIRMWARE_UPDATE_METHOD_NONE
  · rw [if_pos h1]
    simp
  rw [if_neg h1]
  by_cases h2 : has_method omodem.update_settings.method
      MM_MODEM_FIRMWARE_UPDATE_METHOD_FASTBOOT = true ∧ omodem.update_settings.fastboot_at = none
  · rw [if_pos h2]
    simp
  rw [if_neg h2]
  split
  · simp
  · simp
  · split
    · simp
    · split
      · simp
      · apply check_ports_returns
        rw [(find_ports_fields _ _).1]
        rcases h with hF | hQ
        · left
          rw [if_pos hF]
          exact hF
        · right
          split <;> exact hQ

/-! ### Sequences of `fu_mm_device_udev_add_port` calls -/

theorem first_path_cons (c : PortCall) (rest : List PortCall) (p : PortCall → Bool) :
    first_path (c :: rest) p = if p c then some c.path else first_path rest p := by
  unfold first_path
  cases h : p c <;> simp [List.find?_cons, h]

/-- What one `fu_mm_device_udev_add_port` call does to the fields of the
device. -/
theorem add_port_fields (d : FuMmDevice) (c : PortCall) :
    (fu_mm_device_udev_add_port d c.subsystem c.path c.ifnum).port_qmi
        = (if is_usbmisc c ∧ d.port_qmi = none then some c.path else d.port_qmi) ∧
      (fu_mm_device_udev_add_port d c.subsystem c.path c.ifnum).port_at
        = (if is_at_tty d.port_at_ifnum c ∧ d.port_at = none then some c.path
            else d.port_at) ∧
      (fu_mm_device_udev_add_port d c.subsystem c.path c.ifnum).port_at_ifnum
        = d.port_at_ifnum ∧
      (fu_mm_device_udev_add_port d c.subsystem c.path c.ifnum).update_methods
        = d.update_methods ∧
      (fu_mm_device_udev_add_port d c.subsystem c.path c.ifnum).detach_fastboot_at
        = d.detach_fastboot_at := by
  have hne : "usbmisc".toList ≠ "tty".toList := by decide
  have hu : is_usbmisc c = true ↔ c.subsystem = "usbmisc".toList := by
    unfold is_usbmisc
    exact decide_eq_true_iff
  have ht : is_at_tty d.port_at_ifnum c = true ↔
      (c.subsystem = "tty".toList ∧ 0 ≤ c.ifnum ∧ c.ifnum = d.port_at_ifnum) := by
    unfold is_at_tty
    exact decide_eq_true_iff
  unfold fu_mm_device_udev_add_port
  by_cases h1 : c.subsystem = "usbmisc".toList ∧ d.port_qmi = none
  · have h2 : ¬ (is_at_tty d.port_at_ifnum c = true ∧ d.port_at = none) :=
      fun h => hne (h1.1.symm.trans (ht.1 h.1).1)
    rw [if_pos h1, if_pos ⟨hu.2 h1.1, h1.2⟩, if_neg h2]
    exact ⟨rfl, rfl, rfl, rfl, rfl⟩
  · have h1' : ¬ (is_usbmisc c = true ∧ d.port_qmi = none) :=
      fun h => h1 ⟨hu.1 h.1, h.2⟩
    rw [if_neg h1, if_neg h1']
    by_cases h3 : c.subsystem = "tty".toList ∧ d.port_at = none ∧ 0 ≤ c.ifnum ∧
        c.ifnum = d.port_at_ifnum
    · rw [if_pos h3, if_pos ⟨ht.2 ⟨h3.1, h3.2.2.1, h3.2.2.2⟩, h3.2.1⟩]
      exact ⟨rfl, rfl, rfl, rfl, rfl⟩
    · have h3' : ¬ (is_at_tty d.port_at_ifnum c = true ∧ d.port_at = none) :=
        fun h => h3 ⟨(ht.1 h.1).1, h.2, (ht.1 h.1).2.1, (ht.1 h.1).2.2⟩
      rw [if_neg h3, if_neg h3']
      exact ⟨rfl, rfl, rfl, rfl, rfl⟩

/-- What a sequence of calls does to the fields of any device. -/
theorem add_ports_fields (d : FuMmDevice) (calls : List PortCall) :
    (add_ports d calls).port_qmi
        = (match d.port_qmi with
          | some port => some port
          | none => first_path calls is_usbmisc) ∧
      (add_ports d calls).port_at
        = (match d.port_at with
          | some port => some port
          | none => first_path calls (is_at_tty d.port_at_ifnum)) ∧
      (add_ports d calls).port_at_ifnum = d.port_at_ifnum ∧
      (add_ports d calls).update_methods = d.update_methods ∧
      (add_ports d calls).detach_fastboot_at = d.detach_fastboot_at := by
  induction calls generalizing d with
  | nil =>
    refine ⟨?_, ?_, rfl, rfl, rfl⟩
    · show d.port_qmi = _
      cases d.port_qmi <;> rfl
    · show d.port_at = _
      cases d.port_at <;> rfl
  | cons c rest ih =>
    have hstep : add_ports d (c :: rest)
        = add_ports (fu_mm_device_udev_add_port d c.subsystem c.path c.ifnum) rest := rfl
    obtain ⟨i1, i2, i3, i4, i5⟩ :=
      ih (fu_mm_device_udev_add_port d c.subsystem c.path c.ifnum)
    obtain ⟨a1, a2, a3, a4, a5⟩ := add_port_fields d c
    rw [hstep]
    refine ⟨?_, ?_, i3.trans a3, i4.trans a4, i5.trans a5⟩
    · rw [i1, a1, first_path_cons]
      cases hq : d.port_qmi with
      | some port => simp
      | none => cases hu : is_usbmisc c <;> simp
    · rw [i2, a2, a3, first_path_cons]
      cases hq : d.port_at with
      | some port => simp
      | none => cases hu : is_at_tty d.port_at_ifnum c <;> simp

theorem add_ports_append (d : FuMmDevice) (l1 l2 : List PortCall) :
    add_ports d (l1 ++ l2) = add_ports (add_ports d l1) l2 := by
  unfold add_ports
  rw [List.foldl_append]

theorem first_path_eq_none (calls : List PortCall) (p : PortCall → Bool)
    (h : first_path calls p = none) : ∀ c ∈ calls, p c = false := by
  unfold first_path at h
  rw [Option.map_eq_none', List.find?_eq_none] at h
  intro c hc
  simpa using h c hc

theorem add_ports_step (d0 : FuMmDevice) (hq : d0.port_qmi = none) (ha : d0.port_at = none)
    (l1 : List PortCall) (c : PortCall) :
    ((add_ports d0 (l1 ++ [c])).port_qmi ≠ (add_ports d0 l1).port_qmi →
        is_usbmisc c = true ∧ ∀ c' ∈ l1, is_usbmisc c' = false) ∧
      ((add_ports d0 (l1 ++ [c])).port_at ≠ (add_ports d0 l1).port_at →
        is_at_tty d0.port_at_ifnum c = true ∧
          ∀ c' ∈ l1, is_at_tty d0.port_at_ifnum c' = false) := by
  have hstep : add_ports d0 (l1 ++ [c])
      = fu_mm_device_udev_add_port (add_ports d0 l1) c.subsystem c.path c.ifnum := by
    rw [add_ports_append]
    rfl
  obtain ⟨f1, f2, f3, -, -⟩ := add_ports_fields d0 l1
  obtain ⟨a1, a2, -, -, -⟩ := add_port_fields (add_ports d0 l1) c
  rw [hq] at f1
  rw [ha] at f2
  have f1' : (add_ports d0 l1).port_qmi = first_path l1 is_usbmisc := f1
  have f2' : (add_ports d0 l1).port_at = first_path l1 (is_at_tty d0.port_at_ifnum) := f2
  rw [hstep]
  constructor
  · intro hne
    rw [a1] at hne
    by_cases hc : is_usbmisc c = true ∧ (add_ports d0 l1).port_qmi = none
    · exact ⟨hc.1, first_path_eq_none l1 _ (f1'.symm.trans hc.2)⟩
    · rw [if_neg hc] at hne
      exact absurd rfl hne
  · intro hne
    rw [a2, f3] at hne
    by_cases hc : is_at_tty d0.port_at_ifnum c = true ∧ (add_ports d0 l1).port_at = none
    · exact ⟨hc.1, first_path_eq_none l1 _ (f2'.symm.trans hc.2)⟩
    · rw [if_neg hc] at hne
      exact absurd rfl hne

/-- A port that is set stays as it is. -/
theorem add_ports_keeps (d : FuMmDevice) (calls : List PortCall) :
    (∀ port, d.port_qmi = some port → (add_ports d calls).port_qmi = some port) ∧
      (∀ port, d.port_at = some port → (add_ports d calls).port_at = some port) := by
  obtain ⟨f1, f2, -, -, -⟩ := add_ports_fields d calls
  constructor
  · intro port h
    rw [f1, h]
  · intro port h
    rw [f2, h]

theorem udev_new_fields (physical_id : Bytes) (vendor name version : Option Bytes)
    (device_ids : List Bytes) (update_methods : Nat) (detach_fastboot_at : Option Bytes)
    (port_at_ifnum : Int) :
    (fu_mm_device_udev_new physical_id vendor name version device_ids update_methods
        detach_fastboot_at port_at_ifnum).port_qmi = none ∧
      (fu_mm_device_udev_new physical_id vendor name version device_ids update_methods
        detach_fastboot_at port_at_ifnum).port_at = none := by
  unfold fu_mm_device_udev_new
  simp only
  constructor
  · exact (foldl_add_guid_fields device_ids _).2.2.2
  · exact (foldl_add_guid_fields device_ids _).2.2.1

/-- C13: on a device made by `fu_mm_device_udev_new`, after any sequence of
`fu_mm_device_udev_add_port` calls the QMI port is the path of the first call
with subsystem `usbmisc` and the AT port is the path of the first call with
subsystem `tty` whose interface number is non-negative and equal to
`port_at_ifnum` (each unset when there is no such call); `update_methods`, the
detach command and `port_at_ifnum` are as given at creation; a call changes a
port only if it is that first call; and a port set after some of the calls is
the same after all of them. -/
theorem udev_add_ports_first_wins (physical_id : Bytes) (vendor name version : Option Bytes)
    (device_ids : List Bytes) (update_methods : Nat) (detach_fastboot_at : Option Bytes)
    (port_at_ifnum : Int) (calls : List PortCall) :
    (add_ports (fu_mm_device_udev_new physical_id vendor name version device_ids
        update_methods detach_fastboot_at port_at_ifnum) calls).port_qmi
        = first_path calls is_usbmisc ∧
      (add_ports (fu_mm_device_udev_new physical_id vendor name version device_ids
        update_methods detach_fastboot_at port_at_ifnum) calls).port_at
        = first_path calls (is_at_tty port_at_ifnum) ∧
      (add_ports (fu_mm_device_udev_new physical_id vendor name version device_ids
        update_methods detach_fastboot_at port_at_ifnum) calls).update_methods
        = update_methods ∧
      (add_ports (fu_mm_device_udev_new physical_id vendor name version device_ids
        update_methods detach_fastboot_at port_at_ifnum) calls).detach_fastboot_at
        = detach_fastboot_at ∧
      (add_ports (fu_mm_device_udev_new physical_id vendor name version device_ids
        update_methods detach_fastboot_at port_at_ifnum) calls).port_at_ifnum
        = port_at_ifnum ∧
      (∀ l1 c l2, calls = l1 ++ c :: l2 →
        ((add_ports (fu_mm_device_udev_new physical_id vendor name version device_ids
              update_methods detach_fastboot_at port_at_ifnum) (l1 ++ [c])).port_qmi
            ≠ (add_ports (fu_mm_device_udev_new physical_id vendor name version device_ids
              update_methods detach_fastboot_at port_at_ifnum) l1).port_qmi →
          is_usbmisc c = true ∧ ∀ c' ∈ l1, is_usbmisc c' = false) ∧
        ((add_ports (fu_mm_device_udev_new physical_id vendor name version device_ids
              update_methods detach_fastboot_at port_at_ifnum) (l1 ++ [c])).port_at
            ≠ (add_ports (fu_mm_device_udev_new physical_id vendor name version device_ids
              update_methods detach_fastboot_at port_at_ifnum) l1).port_at →
          is_at_tty port_at_ifnum c = true ∧ ∀ c' ∈ l1, is_at_tty port_at_ifnum c' = false)) ∧
      (∀ l1 l2 port, calls = l1 ++ l2 →
        ((add_ports (fu_mm_device_udev_new physical_id vendor name version device_ids
              update_methods detach_fastboot_at port_at_ifnum) l1).port_qmi = some port →
          (add_ports (fu_mm_device_udev_new physical_id vendor name version device_ids
              update_methods detach_fastboot_at port_at_ifnum) calls).port_qmi = some port) ∧
        ((add_ports (fu_mm_device_udev_new physical_id vendor name version device_ids
              update_methods detach_fastboot_at port_at_ifnum) l1).port_at = some port →
          (add_ports (fu_mm_device_udev_new physical_id vendor name version device_ids
              update_methods detach_fastboot_at port_at_ifnum) calls).port_at = some port)) := by
  obtain ⟨hq, ha⟩ := udev_new_fields physical_id vendor name version device_ids
    update_methods detach_fastboot_at port_at_ifnum
  generalize hd : fu_mm_device_udev_new physical_id vendor name version device_ids
    update_methods detach_fastboot_at port_at_ifnum = d0 at hq ha ⊢
  have hi : d0.port_at_ifnum = port_at_ifnum := by rw [← hd]; rfl
  have hm : d0.update_methods = update_methods := by rw [← hd]; rfl
  have hc : d0.detach_fastboot_at = detach_fastboot_at := by rw [← hd]; rfl
  obtain ⟨f1, f2, f3, f4, f5⟩ := add_ports_fields d0 calls
  rw [hq] at f1
  rw [ha, hi] at f2
  refine ⟨f1, f2, f4.trans hm, f5.trans hc, f3.trans hi, ?_, ?_⟩
  · intro l1 c l2 _
    have := add_ports_step d0 hq ha l1 c
    rw [hi] at this
    exact this
  · intro l1 l2 port hcalls
    subst hcalls
    rw [add_ports_append]
    exact ⟨(add_ports_keeps _ l2).1 port, (add_ports_keeps _ l2).2 port⟩

/-- On the calls of `port_calls` the first cdc-wdm port and the first tty port
on interface 2 are kept. -/
theorem udev_add_ports_run :
    (add_ports (fu_mm_device_udev_new "/sys/devices/usb1/1-1".toList none none none []
        MM_MODEM_FIRMWARE_UPDATE_METHOD_FASTBOOT (some "AT+QFASTBOOT".toList) 2)
        port_calls).port_qmi = some "/dev/cdc-wdm0".toList ∧
      (add_ports (fu_mm_device_udev_new "/sys/devices/usb1/1-1".toList none none none []
        MM_MODEM_FIRMWARE_UPDATE_METHOD_FASTBOOT (some "AT+QFASTBOOT".toList) 2)
        port_calls).port_at = some "/dev/ttyUSB2".toList := by
  decide

/-! ### Manifest validation -/

/-- The check of one action passes exactly when its filename is present and
its declared size does not differ. -/
theorem validate_action_ok_iff (archive : List (Bytes × Bytes)) (action : ManifestAction) :
    validate_action archive action = .ok () ↔
      ¬ file_absent archive action ∧ ¬ size_differs archive action := by
  unfold validate_action file_absent size_differs
  cases hf : archive.find? (fun entry => entry.1 == action.filename) with
  | none =>
    have habs : ∀ entry ∈ archive, entry.1 ≠ action.filename := by
      intro entry he
      have := List.find?_eq_none.1 hf entry he
      simpa using this
    simp only [reduceCtorEq, false_iff, not_and, not_not]
    intro h
    exact absurd habs h
  | some entry =>
    have hmem : entry ∈ archive := List.mem_of_find?_eq_some hf
    have hname : entry.1 = action.filename := by
      have := List.find?_some hf
      simpa using this
    have hpres : ¬ ∀ e ∈ archive, e.1 ≠ action.filename := fun h => h entry hmem hname
    cases hs : action.size with
    | none =>
      refine ⟨fun _ => ⟨hpres, ?_⟩, fun _ => rfl⟩
      rintro ⟨e, d, -, h2, -⟩
      exact absurd h2 (by simp)
    | some declared =>
      by_cases hd : declared = entry.2.length
      · refine ⟨fun _ => ⟨hpres, ?_⟩, fun _ => ?_⟩
        · rintro ⟨e, d, h1, h2, h3⟩
          cases h1
          cases h2
          exact h3 hd
        · simp only [hd, if_true]
      · refine ⟨fun h => ?_, fun h => ?_⟩
        · simp only [hd, if_false, reduceCtorEq] at h
        · exact absurd ⟨entry, declared, rfl, rfl, hd⟩ h.2

theorem validate_actions_ok_iff (archive : List (Bytes × Bytes)) (actions : List ManifestAction) :
    validate_actions archive actions = .ok () ↔
      ∀ action ∈ actions, validate_action archive action = .ok () := by
  induction actions with
  | nil => simp [validate_actions]
  | cons action rest ih =>
    rw [List.forall_mem_cons]
    unfold validate_actions
    cases h : validate_action archive action with
    | error e =>
      refine ⟨fun hc => ?_, fun hc => ?_⟩
      · simp only [reduceCtorEq] at hc
      · exact absurd hc.1 (by simp)
    | ok u => exact ⟨fun hc => ⟨rfl, ih.1 hc⟩, fun hc => ih.2 hc.2⟩

/-- C12: for a manifest whose action nodes are `actions`, if some action's
filename is absent from the archive or its declared size differs from the size
of the archive entry, `fu_firehose_validate_rawprogram` fails and returns no
action list; otherwise it returns `actions`, all of them in document order; and
whenever it returns a list, that list is `actions`. -/
theorem validate_rawprogram_atomic (parse : Bytes → Except GError (List ManifestAction))
    (rawprogram : Bytes) (archive : List (Bytes × Bytes)) (actions : List ManifestAction)
    (hparse : parse rawprogram = .ok actions) :
    ((∃ action ∈ actions, file_absent archive action ∨ size_differs archive action) →
        ∃ e, fu_firehose_validate_rawprogram parse rawprogram archive = .error e) ∧
      ((∀ action ∈ actions, ¬ file_absent archive action ∧ ¬ size_differs archive action) →
        fu_firehose_validate_rawprogram parse rawprogram archive = .ok actions) ∧
      (∀ returned, fu_firehose_validate_rawprogram parse rawprogram archive = .ok returned →
        returned = actions) := by
  unfold fu_firehose_validate_rawprogram
  simp only [hparse]
  cases hv : validate_actions archive actions with
  | error e =>
    refine ⟨fun _ => ⟨e, rfl⟩, ?_, ?_⟩
    · intro hall
      have hok := (validate_actions_ok_iff archive actions).2
        (fun a ha => (validate_action_ok_iff archive a).2 (hall a ha))
      rw [hok] at hv
      exact absurd hv (by simp)
    · intro returned h
      simp at h
  | ok u =>
    refine ⟨?_, fun _ => rfl, ?_⟩
    · rintro ⟨a, ha, hbad⟩
      have hok := (validate_action_ok_iff archive a).1
        ((validate_actions_ok_iff archive actions).1 hv a ha)
      rcases hbad with h | h
      · exact absurd h hok.1
      · exact absurd h hok.2
    · intro returned h
      simp only [Except.ok.injEq] at h
      exact h.symm

/-- A run of `validate_rawprogram_atomic`: the actions A, B, C against a bundle
that holds their files come back as A, B, C, and against a bundle in which one
size is wrong nothing comes back. -/
theorem validate_rawprogram_run :
    parse_manifest [] = .ok manifest_actions ∧
      fu_firehose_validate_rawprogram parse_manifest [] manifest_archive
        = .ok manifest_actions ∧
      ∃ e, fu_firehose_validate_rawprogram parse_manifest [] manifest_archive_wrong_size
        = .error e :=
  ⟨rfl,
    (validate_rawprogram_atomic parse_manifest [] manifest_archive manifest_actions rfl).2.1
      (fun action h => (validate_action_ok_iff manifest_archive action).1
        ((by decide : ∀ a ∈ manifest_actions, validate_action manifest_archive a = .ok ())
          action h)),
    (validate_rawprogram_atomic parse_manifest [] manifest_archive_wrong_size
      manifest_actions rfl).1
      ⟨{ target := "0".toList, offset := 64, filename := "b.bin".toList, size := some 2,
         checksum := none },
        by decide,
        Or.inr ⟨("b.bin".toList, "bbb".toList), 2, by decide, rfl, by decide⟩⟩⟩

/-- The failure names the file whose size is wrong. -/
theorem validate_rawprogram_wrong_size :
    fu_firehose_validate_rawprogram parse_manifest [] manifest_archive_wrong_size
      = .error (.size_mismatch "b.bin".toList 2 3) := by
  decide

end FuMm
